import Mathlib

/-!
Shallow embedding of the content-lifecycle engine of the peaknorth-admin-blog
repository: the post/idea services (`BlogPostService`, `BlogIdeaService`),
the in-memory tag cache (`src/utils/cache.ts`) and the cadence scheduler
(`computeNextSlots` / `getUpcomingSlots`).

Conventions of the embedding:
* Instants are integer epoch milliseconds (`Int`); every operation that calls
  `Date.now()` takes the current instant as an explicit `now` parameter, and
  the several `Date.now()` calls inside one operation are identified (they
  denote the same tick for the properties at stake).
* The Firestore document store is an association list keyed by document id;
  `update` on a missing document rejects, as Firestore does.
* Asynchronous flows are sequentialized in program order; the fire-and-forget
  regenerate webhook is recorded as an emitted event name.
* Opaque content payloads (brief, outline, draft, seo bodies, media) are
  abstracted to `String`/absence, since the lifecycle logic only tests their
  presence, never their structure.
* String literals in error messages keep the source words but drop the
  quote characters around interpolated ids.
-/

namespace PeakNorth

/-- Post lifecycle status, from `src/types/blog.ts` (the source spells the
regenerate state `REGENRATE`). -/
inductive PostStatus
  | BRIEF
  | OUTLINE
  | DRAFT
  | NEEDS_REVIEW
  | APPROVED
  | SCHEDULED
  | PUBLISHED
  | REGENRATE
deriving DecidableEq, Repr

/-- String form of a post status, used in error messages. -/
def PostStatus.str : PostStatus → String
  | .BRIEF => "BRIEF"
  | .OUTLINE => "OUTLINE"
  | .DRAFT => "DRAFT"
  | .NEEDS_REVIEW => "NEEDS_REVIEW"
  | .APPROVED => "APPROVED"
  | .SCHEDULED => "SCHEDULED"
  | .PUBLISHED => "PUBLISHED"
  | .REGENRATE => "REGENRATE"

/-- Idea lifecycle status, from `src/types/blog.ts`. -/
inductive IdeaStatus
  | UNUSED
  | PROCESSING
  | USED
deriving DecidableEq, Repr

/-- Idea priority, from `src/types/blog.ts`. -/
inductive Priority
  | low
  | medium
  | high
deriving DecidableEq, Repr

/-- Numeric priority order used by `pickNextIdea`
(`const priorityOrder = { high: 3, medium: 2, low: 1 }`). -/
def priorityOrder : Priority → Int
  | .high => 3
  | .medium => 2
  | .low => 1

/-- A JavaScript timestamp value as stored in the `scheduledAt` field: a
number of epoch milliseconds, `null`, or `NaN` (the result of
`new Date(undefined).getTime()`). -/
inductive JsTime
  | null
  | nan
  | ms (t : Int)
deriving DecidableEq, Repr

/-- Errors raised by the services: `NotFoundError` and `ValidationError`
from `src/middleware/errorHandler`.  The spec-level error kinds map onto
these as follows: `InvalidTransition` and `InvalidOperation` and `Conflict`
are all realized as `ValidationError` values distinguished by message. -/
inductive SvcError
  | notFound (msg : String)
  | validationError (msg : String)
deriving DecidableEq, Repr

/-! ### The in-memory cache (`src/utils/cache.ts`) -/

/-- One cache entry (`interface CacheEntry<T>` in `cache.ts`). -/
structure CacheEntry (α : Type) where
  data : α
  expiresAt : Int
  tags : List String
  createdAt : Int
deriving DecidableEq, Repr

/-- The cache is a JS `Map` from string keys to entries: an association
list in insertion order, keys unique. -/
abbrev Cache (α : Type) := List (String × CacheEntry α)

/-- Default TTL in seconds (`private defaultTtl = 300`). -/
def defaultTtl : Int := 300

/-- JS `Map.prototype.get`: first (only) binding of the key. -/
def mapLookup {α : Type} : Cache α → String → Option (CacheEntry α)
  | [], _ => none
  | (k, e) :: rest, key => if k = key then some e else mapLookup rest key

/-- JS `Map.prototype.set`: replace in place if the key is present,
otherwise append. -/
def mapSet {α : Type} : Cache α → String → CacheEntry α → Cache α
  | [], key, e => [(key, e)]
  | (k, e₀) :: rest, key, e =>
      if k = key then (key, e) :: rest else (k, e₀) :: mapSet rest key e

/-- JS `Map.prototype.delete` (just the resulting map). -/
def mapDelete {α : Type} (c : Cache α) (key : String) : Cache α :=
  c.filter (fun kv => decide (kv.1 ≠ key))

namespace Cache

/-- `cache.set(key, value, options)`: a zero or absent `ttl` falls back to
the default (`options.ttl || this.defaultTtl`); expiry is absolute
(`Date.now() + ttl * 1000`). -/
def set {α : Type} (c : Cache α) (key : String) (value : α)
    (ttl : Option Int) (tags : Option (List String)) (now : Int) : Cache α :=
  let t := match ttl with
    | some v => if v = 0 then defaultTtl else v
    | none => defaultTtl
  let tgs := match tags with
    | some l => l
    | none => []
  mapSet c key ⟨value, now + t * 1000, tgs, now⟩

/-- `cache.get(key)`: miss on absence; on a present entry, expiry is checked
lazily (`Date.now() > entry.expiresAt`), the expired entry is deleted and a
miss returned; otherwise a hit leaves the map untouched.  Returns the value
and the resulting map. -/
def get {α : Type} (c : Cache α) (key : String) (now : Int) :
    Option α × Cache α :=
  match mapLookup c key with
  | none => (none, c)
  | some e =>
      if now > e.expiresAt then (none, mapDelete c key)
      else (some e.data, c)

/-- `cache.del(key)`: returns whether a binding was removed. -/
def del {α : Type} (c : Cache α) (key : String) : Bool × Cache α :=
  ((mapLookup c key).isSome, mapDelete c key)

/-- `cache.delByTag(tag)`: removes every entry whose tag list contains the
tag; returns the count removed. -/
def delByTag {α : Type} (c : Cache α) (tag : String) : Nat × Cache α :=
  ((c.filter (fun kv => decide (tag ∈ kv.2.tags))).length,
    c.filter (fun kv => decide (tag ∉ kv.2.tags)))

/-- `cache.has(key)`: same lazy-expiry check as `get`, no value. -/
def has {α : Type} (c : Cache α) (key : String) (now : Int) :
    Bool × Cache α :=
  match mapLookup c key with
  | none => (false, c)
  | some e =>
      if now > e.expiresAt then (false, mapDelete c key)
      else (true, c)

end Cache

/-! ### Data model (`src/types/blog.ts`) -/

/-- A stored blog post.  Content-stage payloads (`brief`, `outline`, `draft`,
`seo`) are abstracted to opaque strings; absence models `null` for the
always-present nullable fields and a missing property for the
conditionally-spread optional ones (`tags`, `category`, `errorMessage`). -/
structure BlogPost where
  id : String
  status : PostStatus
  scheduledAt : JsTime
  publishedAt : Option Int
  createdAt : Int
  updatedAt : Int
  brief : Option String
  outline : Option String
  draft : Option String
  seo : Option String
  ideaId : String
  tags : Option (List String)
  category : Option String
  errorMessage : Option String
deriving DecidableEq, Repr

/-- A stored blog idea.  Free-text fields are kept as opaque strings;
`updatedAt` and `isBriefCreated` are extra properties that `updateIdea`
writes into the document. -/
structure BlogIdea where
  id : String
  status : IdeaStatus
  topic : String
  persona : String
  goal : String
  targetAudience : String
  priority : Priority
  createdAt : Int
  tags : List String
  notes : Option String
  updatedAt : Option Int
  isBriefCreated : Option Bool
deriving DecidableEq, Repr

/-- `CreatePostRequest`.  The `status` field is not in the TS interface, but
the route validator (`createPostSchema`) accepts and forwards one; it is
included here to express that `createPost` ignores any caller-supplied
status.  Media fields are omitted (never read by the lifecycle logic). -/
structure CreatePostRequest where
  status : Option PostStatus
  brief : Option String
  outline : Option String
  draft : Option String
  seo : Option String
  scheduledAt : Option Int
  tags : Option (List String)
  category : Option String
  ideaId : Option String
  errorMessage : Option String
deriving DecidableEq, Repr

/-- `UpdatePostRequest` as consumed by `updatePost`.  A present field is
written through `postRef.update`; an absent one leaves the document field
alone.  `publishedAt` is not in the TS interface but `updatePostStatus`
passes it inside its untyped `updateData`. -/
structure UpdatePostRequest where
  status : Option PostStatus
  brief : Option String
  outline : Option String
  draft : Option String
  seo : Option String
  scheduledAt : Option JsTime
  errorMessage : Option String
  publishedAt : Option Int
deriving DecidableEq, Repr

/-- `UpdatePostStatusRequest`: a mandatory target status, an optional
`scheduledAt` date (absent models the TS `undefined`) and an optional
error message. -/
structure UpdatePostStatusRequest where
  status : PostStatus
  scheduledAt : Option Int
  errorMessage : Option String
deriving DecidableEq, Repr

/-- `UpdateIdeaRequest` restricted to the fields the modeled flows supply
(`{ status: USED }` from `publishPost`, `{ isBriefCreated: true }` from the
auto-advance in `updatePost`).  The free-text update fields are omitted:
no modeled operation passes them. -/
structure UpdateIdeaRequest where
  status : Option IdeaStatus
  isBriefCreated : Option Bool
deriving DecidableEq, Repr

/-- `CreateIdeaRequest` (`status` is caller-supplied for ideas,
unlike posts). -/
structure CreateIdeaRequest where
  status : IdeaStatus
  topic : String
  persona : String
  goal : String
  targetAudience : Option String
  priority : Priority
  tags : Option (List String)
  notes : Option String
deriving DecidableEq, Repr

/-- Values held by the service cache: single records and list views. -/
inductive CVal
  | post (p : BlogPost)
  | postList (l : List BlogPost)
  | idea (i : BlogIdea)
  | ideaList (l : List BlogIdea)
deriving DecidableEq, Repr

deriving instance DecidableEq for Except

/-! ### Store and service state -/

/-- A Firestore collection: an association list keyed by document id. -/
abbrev Db (β : Type) := List (String × β)

/-- Document read (`doc(id).get()`), first binding of the id. -/
def dbGet {β : Type} : Db β → String → Option β
  | [], _ => none
  | (k, v) :: rest, key => if k = key then some v else dbGet rest key

/-- Document write (`doc(id).set(record)`): create or overwrite. -/
def dbSet {β : Type} : Db β → String → β → Db β
  | [], key, v => [(key, v)]
  | (k, v₀) :: rest, key, v =>
      if k = key then (key, v) :: rest else (k, v₀) :: dbSet rest key v

/-- Document delete (`doc(id).delete()`). -/
def dbDelete {β : Type} (d : Db β) (key : String) : Db β :=
  d.filter (fun kv => decide (kv.1 ≠ key))

/-- The whole mutable state the services act on: the two collections, the
process-wide cache, and the list of dispatched webhook event names. -/
structure SvcState where
  posts : Db BlogPost
  ideas : Db BlogIdea
  cache : Cache CVal
  events : List String
deriving DecidableEq, Repr

/-! ### BlogIdeaService (`src/services/BlogIdeaService.ts`)

Every operation maps the pre-state to a result and a post-state; a thrown
error is an `Except.error` paired with the state as mutated so far (all
modeled operations mutate nothing before a throw, matching the source). -/

namespace BlogIdeaService

/-- Cache TTL used by the services (`CACHE_TTL = 300` seconds). -/
def CACHE_TTL : Int := 300

/-- Insert an element after every element that the comparator places weakly
before it: the insertion step of a stable sort. -/
def insertLe {α : Type} (le : α → α → Bool) (a : α) : List α → List α
  | [] => [a]
  | b :: t => if le b a then b :: insertLe le a t else a :: b :: t

/-- Stable sort by a total preorder, modeling the (stable) JS
`Array.prototype.sort` with a consistent comparator: `le a b` holds iff the
comparator returns a value `≤ 0` on `(a, b)`. -/
def stableSort {α : Type} (le : α → α → Bool) (l : List α) : List α :=
  l.foldl (fun acc a => insertLe le a acc) []

/-- Cache key for a `getAllIdeas` call: the source uses
`ideas:all:` followed by `JSON.stringify(filters)`.  The encoding is
abstracted injectively; only the status filter is modeled (no modeled
caller supplies priority, tag or search filters). -/
def ideaFiltersKey : Option IdeaStatus → String
  | none => "ideas:all:empty"
  | some .UNUSED => "ideas:all:status-UNUSED"
  | some .PROCESSING => "ideas:all:status-PROCESSING"
  | some .USED => "ideas:all:status-USED"

/-- The base query `orderBy("createdAt", "desc")`: stable sort of the
collection by creation time, newest first. -/
def sortIdeasByCreatedDesc (d : Db BlogIdea) : List BlogIdea :=
  (stableSort (fun a b => decide (b.2.createdAt ≤ a.2.createdAt)) d).map
    (fun kv => kv.2)

/-- `getAllIdeas(filters)`: cache-aside read of the full collection.  The
`status` filter is accepted in the signature and — exactly as in the source,
where only priority/tags/search are applied client-side and no `where`
clause is built — never applied to the result.  (A cached value under this
key namespace is always an `ideaList`, so the type-tag mismatch branch is
unreachable.) -/
def getAllIdeas (s : SvcState) (statusFilter : Option IdeaStatus)
    (now : Int) : Except SvcError (List BlogIdea) × SvcState :=
  let key := ideaFiltersKey statusFilter
  match Cache.get s.cache key now with
  | (some (CVal.ideaList l), c₁) => (.ok l, { s with cache := c₁ })
  | (_, c₁) =>
      let ideas := sortIdeasByCreatedDesc s.ideas
      let c₂ := Cache.set c₁ key (CVal.ideaList ideas)
        (some CACHE_TTL) (some ["ideas"]) now
      (.ok ideas, { s with cache := c₂ })

/-- `getUnusedIdeas()`: delegates to `getAllIdeas({ status: "UNUSED" })`. -/
def getUnusedIdeas (s : SvcState) (now : Int) :
    Except SvcError (List BlogIdea) × SvcState :=
  getAllIdeas s (some .UNUSED) now

/-- `updateIdeaStatus(ideaId, status)`: a bare `ideaRef.update({ status })`.
Firestore rejects an update of a missing document; note that this operation
performs no cache invalidation (there is none in the source). -/
def updateIdeaStatus (s : SvcState) (ideaId : String) (status : IdeaStatus) :
    Except SvcError Unit × SvcState :=
  match dbGet s.ideas ideaId with
  | none => (.error (.notFound "Idea"), s)
  | some i =>
      (.ok (), { s with ideas := dbSet s.ideas ideaId { i with status := status } })

/-- The comparator of `pickNextIdea` as a stable-sort `le` relation:
`le a b` iff the JS comparator returns a value `≤ 0` on `(a, b)` —
priority high before medium before low, ties by older creation time. -/
def pickNextLe (a b : BlogIdea) : Bool :=
  let priorityDiff := priorityOrder b.priority - priorityOrder a.priority
  if priorityDiff = 0 then decide (a.createdAt - b.createdAt ≤ 0)
  else decide (priorityDiff ≤ 0)

/-- `pickNextIdea()`: loads the "unused" ideas, returns `null` when there
are none, otherwise stable-sorts by priority then creation time, flips the
winner to PROCESSING through `updateIdeaStatus` and returns it. -/
def pickNextIdea (s : SvcState) (now : Int) :
    Except SvcError (Option BlogIdea) × SvcState :=
  match getUnusedIdeas s now with
  | (.error e, s₁) => (.error e, s₁)
  | (.ok unusedIdeas, s₁) =>
      if unusedIdeas.isEmpty then (.ok none, s₁)
      else
        match stableSort pickNextLe unusedIdeas with
        | [] => (.ok none, s₁)
        | selectedIdea :: _ =>
            match updateIdeaStatus s₁ selectedIdea.id .PROCESSING with
            | (.error e, s₂) => (.error e, s₂)
            | (.ok _, s₂) => (.ok (some selectedIdea), s₂)

/-- `markIdeaAsUsed(ideaId)`: rejects an already USED or PROCESSING idea,
otherwise writes USED and invalidates the ideas tag. -/
def markIdeaAsUsed (s : SvcState) (ideaId : String) :
    Except SvcError Unit × SvcState :=
  match dbGet s.ideas ideaId with
  | none => (.error (.notFound "Idea"), s)
  | some ideaData =>
      if ideaData.status = .USED then
        (.error (.validationError "Idea is already used"), s)
      else if ideaData.status = .PROCESSING then
        (.error (.validationError "Idea is already processing"), s)
      else
        (.ok (), { s with
          ideas := dbSet s.ideas ideaId { ideaData with status := .USED }
          cache := (Cache.delByTag s.cache "ideas").2 })

/-- Merge an `UpdateIdeaRequest` into a stored idea
(`{...updates, updatedAt: Date.now()}` written through `ideaRef.update`). -/
def applyIdeaUpdate (i : BlogIdea) (u : UpdateIdeaRequest) (now : Int) :
    BlogIdea :=
  { i with
    status := match u.status with | some st => st | none => i.status
    isBriefCreated := match u.isBriefCreated with
      | some b => some b
      | none => i.isBriefCreated
    updatedAt := some now }

/-- `updateIdea(ideaId, updates)`: merge-update, re-read, invalidate the
ideas tag, return the updated idea. -/
def updateIdea (s : SvcState) (ideaId : String) (updates : UpdateIdeaRequest)
    (now : Int) : Except SvcError BlogIdea × SvcState :=
  match dbGet s.ideas ideaId with
  | none => (.error (.notFound "Idea"), s)
  | some i =>
      let updatedIdea := applyIdeaUpdate i updates now
      (.ok updatedIdea, { s with
        ideas := dbSet s.ideas ideaId updatedIdea
        cache := (Cache.delByTag s.cache "ideas").2 })

/-- `deleteIdea(ideaId)`: a USED idea cannot be deleted; otherwise the
record is removed and the ideas tag invalidated. -/
def deleteIdea (s : SvcState) (ideaId : String) :
    Except SvcError Unit × SvcState :=
  match dbGet s.ideas ideaId with
  | none => (.error (.notFound "Idea"), s)
  | some ideaData =>
      if ideaData.status = .USED then
        (.error (.validationError "Cannot delete an idea that has been used"), s)
      else
        (.ok (), { s with
          ideas := dbDelete s.ideas ideaId
          cache := (Cache.delByTag s.cache "ideas").2 })

/-- `createIdea(ideaData)`: stores a new idea under a fresh id with the
caller-supplied status; string trimming is identity on the opaque texts. -/
def createIdea (s : SvcState) (req : CreateIdeaRequest) (freshId : String)
    (now : Int) : Except SvcError BlogIdea × SvcState :=
  let idea : BlogIdea := {
    id := freshId
    status := req.status
    topic := req.topic
    persona := req.persona
    goal := req.goal
    targetAudience := match req.targetAudience with | some t => t | none => ""
    priority := req.priority
    createdAt := now
    tags := match req.tags with | some l => l | none => []
    notes := req.notes
    updatedAt := none
    isBriefCreated := none }
  (.ok idea, { s with
    ideas := dbSet s.ideas freshId idea
    cache := (Cache.delByTag s.cache "ideas").2 })

/-- `getIdeaById(ideaId)`: cache-aside single-record read. -/
def getIdeaById (s : SvcState) (ideaId : String) (now : Int) :
    Except SvcError BlogIdea × SvcState :=
  let key := "idea:" ++ ideaId
  match Cache.get s.cache key now with
  | (some (CVal.idea i), c₁) => (.ok i, { s with cache := c₁ })
  | (_, c₁) =>
      match dbGet s.ideas ideaId with
      | none => (.error (.notFound "Idea"), { s with cache := c₁ })
      | some idea =>
          let c₂ := Cache.set c₁ key (CVal.idea idea)
            (some CACHE_TTL) (some ["ideas"]) now
          (.ok idea, { s with cache := c₂ })

end BlogIdeaService

/-! ### BlogPostService (`src/services/BlogPostService.ts`) -/

namespace BlogPostService

/-- Cache TTL (`CACHE_TTL = 300` seconds). -/
def CACHE_TTL : Int := 300

/-- The transition table of `validateStatusTransition`. -/
def validTransitions : PostStatus → List PostStatus
  | .BRIEF => [.OUTLINE, .DRAFT, .REGENRATE]
  | .OUTLINE => [.DRAFT, .BRIEF, .REGENRATE, .NEEDS_REVIEW]
  | .DRAFT => [.NEEDS_REVIEW, .OUTLINE, .REGENRATE]
  | .NEEDS_REVIEW => [.APPROVED, .DRAFT, .REGENRATE]
  | .APPROVED => [.SCHEDULED, .PUBLISHED, .DRAFT, .REGENRATE]
  | .SCHEDULED => [.PUBLISHED, .APPROVED, .REGENRATE]
  | .PUBLISHED => [.PUBLISHED, .REGENRATE]
  | .REGENRATE => [.BRIEF, .OUTLINE, .DRAFT, .NEEDS_REVIEW]

/-- `validateStatusTransition(currentStatus, newStatus)`: throws a
`ValidationError` when the target is not in the allowed list.  This is the
realization of the spec-level `InvalidTransition` error. -/
def validateStatusTransition (currentStatus newStatus : PostStatus) :
    Except SvcError Unit :=
  let allowedTransitions := validTransitions currentStatus
  if newStatus ∈ allowedTransitions then .ok ()
  else .error (.validationError
    ("Invalid status transition from " ++ currentStatus.str ++ " to "
      ++ newStatus.str))

/-- `createPost(postData)`: the status is hardwired to BRIEF (any status in
the request is ignored), `publishedAt` starts null, identity and the two
timestamps are generated. -/
def createPost (s : SvcState) (postData : CreatePostRequest) (freshId : String)
    (now : Int) : Except SvcError BlogPost × SvcState :=
  let post : BlogPost := {
    id := freshId
    status := .BRIEF
    scheduledAt := match postData.scheduledAt with
      | some t => JsTime.ms t
      | none => JsTime.null
    publishedAt := none
    createdAt := now
    updatedAt := now
    brief := postData.brief
    outline := postData.outline
    draft := postData.draft
    seo := postData.seo
    ideaId := match postData.ideaId with | some i => i | none => ""
    tags := postData.tags
    category := postData.category
    errorMessage := postData.errorMessage }
  (.ok post, { s with
    posts := dbSet s.posts freshId post
    cache := (Cache.delByTag s.cache "posts").2 })

/-- `getPostById(postId)`: cache-aside single-record read. -/
def getPostById (s : SvcState) (postId : String) (now : Int) :
    Except SvcError BlogPost × SvcState :=
  let key := "post:" ++ postId
  match Cache.get s.cache key now with
  | (some (CVal.post p), c₁) => (.ok p, { s with cache := c₁ })
  | (_, c₁) =>
      match dbGet s.posts postId with
      | none =>
          (.error (.notFound ("Post with ID " ++ postId ++ " not found")),
            { s with cache := c₁ })
      | some post =>
          let c₂ := Cache.set c₁ key (CVal.post post)
            (some CACHE_TTL) (some ["posts"]) now
          (.ok post, { s with cache := c₂ })

/-- `getIdeaByPostId(postId)`: reads the post document directly (no cache),
fails when it is missing or carries an empty `ideaId`, then resolves the
idea through `getIdeaById`. -/
def getIdeaByPostId (s : SvcState) (postId : String) (now : Int) :
    Except SvcError BlogIdea × SvcState :=
  match dbGet s.posts postId with
  | none =>
      (.error (.notFound ("Post with ID " ++ postId ++ " has no idea ID")), s)
  | some postDoc =>
      if postDoc.ideaId = "" then
        (.error (.notFound ("Post with ID " ++ postId ++ " has no idea ID")), s)
      else BlogIdeaService.getIdeaById s postDoc.ideaId now

/-- Merge of `postRef.update({...updates, updatedAt: Date.now()})` into the
stored document: present fields overwrite, absent fields persist. -/
def applyPostUpdate (p : BlogPost) (u : UpdatePostRequest) (now : Int) :
    BlogPost :=
  { p with
    status := match u.status with | some st => st | none => p.status
    brief := match u.brief with | some b => some b | none => p.brief
    outline := match u.outline with | some o => some o | none => p.outline
    draft := match u.draft with | some d => some d | none => p.draft
    seo := match u.seo with | some v => some v | none => p.seo
    scheduledAt := match u.scheduledAt with | some t => t | none => p.scheduledAt
    errorMessage := match u.errorMessage with
      | some e => some e
      | none => p.errorMessage
    publishedAt := match u.publishedAt with
      | some t => some t
      | none => p.publishedAt
    updatedAt := now }

/-- `updatePost(postId, updates)`: fetches the owning idea before the
existence check (so a post without a resolvable idea makes the whole update
fail), validates an explicit status change against the transition table
(a same-status update skips validation), writes the merge, auto-advances
BRIEF to OUTLINE when an outline arrives (flagging the idea), invalidates
the posts tag and the single-post key, unconditionally marks the owning
idea USED when the resulting status is PUBLISHED, and fires the regenerate
webhook when the requested status was REGENRATE. -/
def updatePost (s : SvcState) (postId : String) (updates : UpdatePostRequest)
    (now : Int) : Except SvcError BlogPost × SvcState :=
  let postDoc := dbGet s.posts postId
  match getIdeaByPostId s postId now with
  | (.error e, s₁) => (.error e, s₁)
  | (.ok idea, s₁) =>
      match postDoc with
      | none =>
          (.error (.notFound ("Post with ID " ++ postId ++ " not found")), s₁)
      | some currentPost =>
          let validation : Except SvcError Unit :=
            match updates.status with
            | some st =>
                if st ≠ currentPost.status then
                  validateStatusTransition currentPost.status st
                else .ok ()
            | none => .ok ()
          match validation with
          | .error e => (.error e, s₁)
          | .ok _ =>
              let written := applyPostUpdate currentPost updates now
              let s₂ := { s₁ with posts := dbSet s₁.posts postId written }
              let autoRes : Except SvcError Unit × SvcState :=
                if updates.outline.isSome ∧ currentPost.status = .BRIEF then
                  let advanced := { written with status := PostStatus.OUTLINE }
                  let s₃ := { s₂ with posts := dbSet s₂.posts postId advanced }
                  match BlogIdeaService.updateIdea s₃ idea.id
                    ⟨none, some true⟩ now with
                  | (.error e, s₄) => (.error e, s₄)
                  | (.ok _, s₄) => (.ok (), s₄)
                else (.ok (), s₂)
              match autoRes with
              | (.error e, s₃) => (.error e, s₃)
              | (.ok _, s₃) =>
                  let updatedPost := match dbGet s₃.posts postId with
                    | some q => q
                    | none => written
                  let c₁ := (Cache.delByTag s₃.cache "posts").2
                  let c₂ := (Cache.del c₁ ("post:" ++ postId)).2
                  let s₄ := { s₃ with cache := c₂ }
                  match (if updatedPost.status = .PUBLISHED then
                      BlogIdeaService.updateIdeaStatus s₄ idea.id .USED
                    else (.ok (), s₄)) with
                  | (.error e, s₅) => (.error e, s₅)
                  | (.ok _, s₅) =>
                      let s₆ := if updates.status = some .REGENRATE then
                          { s₅ with events := s₅.events ++ ["post.regenerate"] }
                        else s₅
                      (.ok updatedPost, s₆)

/-- The `updateData` payload that `updatePostStatus` hands to `updatePost`:
the target status, `updatedAt` (added by `updatePost` itself in this model),
the `scheduledAt` write — an absent (undefined) date still enters the
`scheduledAt !== null` branch, and `new Date(undefined).getTime()` is NaN —
the optional error message, and `publishedAt = now` exactly on a first
transition into PUBLISHED. -/
def statusUpdateData (post : BlogPost) (statusUpdate : UpdatePostStatusRequest)
    (now : Int) : UpdatePostRequest :=
  { status := some statusUpdate.status
    brief := none
    outline := none
    draft := none
    seo := none
    scheduledAt := some (match statusUpdate.scheduledAt with
      | some t => JsTime.ms t
      | none => JsTime.nan)
    errorMessage := statusUpdate.errorMessage
    publishedAt :=
      if statusUpdate.status = .PUBLISHED ∧ post.status ≠ .PUBLISHED
      then some now else none }

/-- `updatePostStatus(postId, statusUpdate)`: validates the transition
unconditionally against the table, builds the update payload, best-effort
marks the owning idea USED on a first transition into PUBLISHED (failures
caught and only logged), then delegates to `updatePost`. -/
def updatePostStatus (s : SvcState) (postId : String)
    (statusUpdate : UpdatePostStatusRequest) (now : Int) :
    Except SvcError BlogPost × SvcState :=
  match getPostById s postId now with
  | (.error e, s₁) => (.error e, s₁)
  | (.ok post, s₁) =>
      match validateStatusTransition post.status statusUpdate.status with
      | .error e => (.error e, s₁)
      | .ok _ =>
          let updateData := statusUpdateData post statusUpdate now
          let s₂ :=
            if statusUpdate.status = .PUBLISHED ∧ post.status ≠ .PUBLISHED
                ∧ post.ideaId ≠ "" then
              (BlogIdeaService.markIdeaAsUsed s₁ post.ideaId).2
            else s₁
          updatePost s₂ postId updateData now

/-- `publishPost(postId)`: only an APPROVED or SCHEDULED post may be
published (the spec-level `InvalidOperation`); the owning idea is set USED
through `updateIdea` and the publish itself is delegated to
`updatePostStatus(..., PUBLISHED)` with `scheduledAt` = now. -/
def publishPost (s : SvcState) (postId : String) (now : Int) :
    Except SvcError BlogPost × SvcState :=
  match getPostById s postId now with
  | (.error e, s₁) => (.error e, s₁)
  | (.ok post, s₁) =>
      match getIdeaByPostId s₁ postId now with
      | (.error e, s₂) => (.error e, s₂)
      | (.ok idea, s₂) =>
          if post.status ≠ .APPROVED ∧ post.status ≠ .SCHEDULED then
            (.error (.validationError
              "Only approved or scheduled posts can be published"), s₂)
          else
            match BlogIdeaService.updateIdea s₂ idea.id ⟨some .USED, none⟩ now with
            | (.error e, s₃) => (.error e, s₃)
            | (.ok _, s₃) =>
                updatePostStatus s₃ postId ⟨.PUBLISHED, some now, none⟩ now

/-- `deletePost(postId)`: a PUBLISHED post cannot be deleted (the spec-level
`Conflict`); otherwise the record is removed and the posts cache entries
invalidated. -/
def deletePost (s : SvcState) (postId : String) (now : Int) :
    Except SvcError Unit × SvcState :=
  match getPostById s postId now with
  | (.error e, s₁) => (.error e, s₁)
  | (.ok post, s₁) =>
      if post.status = .PUBLISHED then
        (.error (.validationError "Cannot delete a published post"), s₁)
      else
        let c₁ := (Cache.delByTag s₁.cache "posts").2
        let c₂ := (Cache.del c₁ ("post:" ++ postId)).2
        (.ok (), { s₁ with posts := dbDelete s₁.posts postId, cache := c₂ })

end BlogPostService

/-! ### Cadence scheduler (`src/utils/scheduler.ts`)

The IANA time zone of the configuration is modeled as a fixed UTC offset in
milliseconds, so luxon's calendar operations become exact arithmetic:
`startOf('day')` is the enclosing local midnight, `set({hour})` lands on
that local hour, and `plus({days})` adds whole 86400000 ms days.  This is
exact for `UTC` and for any zone without transitions; all instants are
integer epoch milliseconds, as in the source. -/

/-- Milliseconds in a day. -/
def msPerDay : Int := 86400000

/-- Milliseconds in an hour. -/
def msPerHour : Int := 3600000

/-- Cadence configuration (`CadenceConfig`), with the zone as a fixed
offset. -/
structure CadenceConfig where
  intervalDays : Int
  publishHour : Int
  offsetMs : Int
  draftLeadHours : Int
deriving DecidableEq, Repr

/-- Validity of a cadence configuration, after the checks of
`validateCadenceConfig`: interval at least one day, publish hour in
`[0, 23]`, draft lead at least one hour (the zone, being a fixed offset
here, is always resolvable). -/
def validCadence (cfg : CadenceConfig) : Prop :=
  1 ≤ cfg.intervalDays ∧ 0 ≤ cfg.publishHour ∧ cfg.publishHour ≤ 23
    ∧ 1 ≤ cfg.draftLeadHours

instance : DecidablePred validCadence := fun cfg => by
  unfold validCadence; infer_instance

/-- `ScheduleSlots`: the publish instant and the draft-creation instant. -/
structure ScheduleSlots where
  scheduledAt : Int
  createAt : Int
deriving DecidableEq, Repr

/-- JS `Math.floor` of a real quotient of integers: floor division. -/
def jsFloorDiv (a b : Int) : Int := Int.fdiv a b

/-- Start of the local calendar day containing the instant
(`now.startOf('day')` in the configured zone), as an instant. -/
def localDayStart (offsetMs nowMs : Int) : Int :=
  jsFloorDiv (nowMs + offsetMs) msPerDay * msPerDay - offsetMs

/-- `computeNextSlots(nowISO, config)`: candidate at today's publish hour;
if already passed (or exactly reached), advance one interval; then align to
the epoch-anchored interval grid computed on UTC day numbers
(`Math.floor(toSeconds() / 86400) % intervalDays`, a JS remainder, i.e.
truncated); finally derive `createAt` by the draft lead. -/
def computeNextSlots (nowMs : Int) (cfg : CadenceConfig) : ScheduleSlots :=
  let candidate := localDayStart cfg.offsetMs nowMs
    + cfg.publishHour * msPerHour
  let nextPublish :=
    if candidate ≤ nowMs then candidate + cfg.intervalDays * msPerDay
    else candidate
  let daysSinceEpoch := jsFloorDiv nextPublish msPerDay
  let intervalOffset := Int.tmod daysSinceEpoch cfg.intervalDays
  let aligned :=
    if intervalOffset ≠ 0 then
      nextPublish + (cfg.intervalDays - intervalOffset) * msPerDay
    else nextPublish
  { scheduledAt := aligned
    createAt := aligned - cfg.draftLeadHours * msPerHour }

/-- The loop body of `getUpcomingSlots`: push the current slot, then
re-derive the next one from the current publish instant plus
`intervalDays` days. -/
def upcomingAux (cfg : CadenceConfig) : Nat → ScheduleSlots → List (Int × Int)
  | 0, _ => []
  | n + 1, currentSlot =>
      (currentSlot.scheduledAt, currentSlot.createAt) ::
        upcomingAux cfg n
          (computeNextSlots (currentSlot.scheduledAt
            + cfg.intervalDays * msPerDay) cfg)

/-- `getUpcomingSlots(config, count)` with the ambient clock made explicit:
`count` successive `(publishAt, createAt)` pairs. -/
def getUpcomingSlots (nowMs : Int) (cfg : CadenceConfig) (count : Nat) :
    List (Int × Int) :=
  upcomingAux cfg count (computeNextSlots nowMs cfg)

/-- A publish instant as the scheduler constructs them: at the configured
local publish hour (zero minutes) and on the epoch-anchored interval grid
of UTC day numbers. -/
def isSlotInstant (cfg : CadenceConfig) (P : Int) : Prop :=
  (P + cfg.offsetMs) % msPerDay = cfg.publishHour * msPerHour
    ∧ cfg.intervalDays ∣ Int.fdiv P msPerDay

/-- No entry of the cache carries the given tag — the observable
postcondition of `deleteByTag`-style invalidation. -/
def noTagged (c : Cache CVal) (tag : String) : Prop :=
  ∀ kv ∈ c, tag ∉ kv.2.tags

/-! ### Concrete fixtures used by witnesses and counterexamples -/

/-- A used idea, for exercising `pickNextIdea` against a non-UNUSED pool. -/
def ideaUsedX : BlogIdea :=
  { id := "i1", status := .USED, topic := "X", persona := "p", goal := "g"
    targetAudience := "", priority := .high, createdAt := 1000, tags := []
    notes := none, updatedAt := none, isBriefCreated := none }

/-- A processing idea owned by a post about to be published. -/
def ideaProcessing : BlogIdea :=
  { id := "i1", status := .PROCESSING, topic := "X", persona := "p", goal := "g"
    targetAudience := "", priority := .high, createdAt := 1000, tags := []
    notes := none, updatedAt := none, isBriefCreated := none }

/-- An unused idea. -/
def ideaUnused : BlogIdea :=
  { id := "i1", status := .UNUSED, topic := "X", persona := "p", goal := "g"
    targetAudience := "", priority := .high, createdAt := 1000, tags := []
    notes := none, updatedAt := none, isBriefCreated := none }

/-- An approved post owned by idea `i1`. -/
def postApproved : BlogPost :=
  { id := "p1", status := .APPROVED, scheduledAt := .null, publishedAt := none
    createdAt := 500, updatedAt := 500, brief := some "b", outline := some "o"
    draft := some "d", seo := some "s", ideaId := "i1", tags := none
    category := none, errorMessage := none }

/-- A published post owned by idea `i1`. -/
def postPublished : BlogPost :=
  { id := "p1", status := .PUBLISHED, scheduledAt := .null
    publishedAt := some 700, createdAt := 500, updatedAt := 600
    brief := some "b", outline := some "o", draft := some "d", seo := some "s"
    ideaId := "i1", tags := none, category := none, errorMessage := none }

/-- A state with one used idea and nothing else. -/
def stIdeaUsed : SvcState := ⟨[], [("i1", ideaUsedX)], [], []⟩

/-- A state with one approved post and its processing idea. -/
def stApprovedProcessing : SvcState :=
  ⟨[("p1", postApproved)], [("i1", ideaProcessing)], [], []⟩

/-- A state with one approved post and its unused idea. -/
def stApprovedUnused : SvcState :=
  ⟨[("p1", postApproved)], [("i1", ideaUnused)], [], []⟩

/-- A state with one published post and its used idea. -/
def stPublishedUsed : SvcState :=
  ⟨[("p1", postPublished)], [("i1", ideaUsedX)], [], []⟩

/-- A 7-day cadence at 09:00 UTC with a 48-hour draft lead. -/
def cfg7 : CadenceConfig :=
  { intervalDays := 7, publishHour := 9, offsetMs := 0, draftLeadHours := 48 }

/-- A cache entry tagged `ideas`, holding an idea list view. -/
def ideasTaggedEntry : CacheEntry CVal :=
  { data := CVal.ideaList [], expiresAt := 1000000, tags := ["ideas"]
    createdAt := 0 }

/-- A state whose cache holds one `ideas`-tagged entry, plus one unused
idea in the store. -/
def stCachedIdeas : SvcState :=
  ⟨[], [("i1", ideaUnused)], [("k", ideasTaggedEntry)], []⟩

/-- The cache entry `getPostById` writes on a miss. -/
def postEntry (p : BlogPost) (now : Int) : CacheEntry CVal :=
  ⟨CVal.post p, now + 300000, ["posts"], now⟩

/-- The cache entry `getIdeaById` writes on a miss. -/
def ideaEntry (i : BlogIdea) (now : Int) : CacheEntry CVal :=
  ⟨CVal.idea i, now + 300000, ["ideas"], now⟩

/-! ### Auxiliary lemmas on the store and the cache -/

theorem dbGet_dbSet_self {β : Type} (d : Db β) (k : String) (v : β) :
    dbGet (dbSet d k v) k = some v := by
  induction d with
  | nil => simp [dbSet, dbGet]
  | cons kv rest ih =>
      by_cases h : kv.1 = k
      · simp [dbSet, dbGet, h]
      · simp [dbSet, dbGet, h, ih]

theorem dbGet_dbSet_ne {β : Type} (d : Db β) (k k' : String) (v : β)
    (h : k ≠ k') : dbGet (dbSet d k v) k' = dbGet d k' := by
  induction d with
  | nil => simp [dbSet, dbGet, h]
  | cons kv rest ih =>
      by_cases hk : kv.1 = k
      · simp [dbSet, dbGet, hk, h]
      · simp [dbSet, dbGet, hk, ih]

theorem dbGet_dbDelete_self {β : Type} (d : Db β) (k : String) :
    dbGet (dbDelete d k) k = none := by
  induction d with
  | nil => simp [dbDelete, dbGet]
  | cons kv rest ih =>
      by_cases h : kv.1 = k
      · simpa [dbDelete, dbGet, h] using ih
      · simpa [dbDelete, dbGet, h] using ih

theorem mapLookup_mapSet_self {α : Type} (c : Cache α) (k : String)
    (e : CacheEntry α) : mapLookup (mapSet c k e) k = some e := by
  induction c with
  | nil => simp [mapSet, mapLookup]
  | cons kv rest ih =>
      by_cases h : kv.1 = k
      · simp [mapSet, mapLookup, h]
      · simp [mapSet, mapLookup, h, ih]

theorem mapLookup_mapDelete_self {α : Type} (c : Cache α) (k : String) :
    mapLookup (mapDelete c k) k = none := by
  induction c with
  | nil => simp [mapDelete, mapLookup]
  | cons kv rest ih =>
      by_cases h : kv.1 = k
      · simpa [mapDelete, mapLookup, h] using ih
      · simpa [mapDelete, mapLookup, h] using ih

/-- Keys of distinct record namespaces never collide. -/
theorem post_key_ne_idea_key (a b : String) :
    ("post:" ++ a) ≠ ("idea:" ++ b) := by
  intro h
  have h2 : ("post:" ++ a).data = ("idea:" ++ b).data := by rw [h]
  simp [String.data_append] at h2

theorem dbSet_dbSet {β : Type} (d : Db β) (k : String) (v w : β) :
    dbSet (dbSet d k v) k w = dbSet d k w := by
  induction d with
  | nil => simp [dbSet]
  | cons kv rest ih =>
      by_cases h : kv.1 = k
      · simp [dbSet, h]
      · simp [dbSet, h, ih]

theorem mapLookup_cons_ne {α : Type} (k1 k : String) (e : CacheEntry α)
    (rest : Cache α) (h : k1 ≠ k) :
    mapLookup ((k1, e) :: rest) k = mapLookup rest k := by
  simp [mapLookup, h]

/-- `getPostById` on a cache miss: the record comes from the store and is
written back to the cache under its `post:` key. -/
theorem getPostById_miss (s : SvcState) (pid : String) (p : BlogPost)
    (now : Int)
    (hmiss : mapLookup s.cache ("post:" ++ pid) = none)
    (hp : dbGet s.posts pid = some p) :
    BlogPostService.getPostById s pid now =
      (.ok p, { s with cache := mapSet s.cache ("post:" ++ pid) (postEntry p now) }) := by
  simp [BlogPostService.getPostById, Cache.get, hmiss, hp, Cache.set,
    BlogPostService.CACHE_TTL, postEntry]

/-- `getPostById` on a fresh cache hit: the cached record is returned and
the state is untouched. -/
theorem getPostById_hit (s : SvcState) (pid : String) (p : BlogPost)
    (now : Int) (e : CacheEntry CVal)
    (hl : mapLookup s.cache ("post:" ++ pid) = some e)
    (hd : e.data = CVal.post p) (hfresh : ¬ (e.expiresAt < now)) :
    BlogPostService.getPostById s pid now = (.ok p, s) := by
  simp [BlogPostService.getPostById, Cache.get, hl, hfresh, hd]

/-- `getIdeaById` on a cache miss. -/
theorem getIdeaById_miss (s : SvcState) (iid : String) (i : BlogIdea)
    (now : Int)
    (hmiss : mapLookup s.cache ("idea:" ++ iid) = none)
    (hi : dbGet s.ideas iid = some i) :
    BlogIdeaService.getIdeaById s iid now =
      (.ok i, { s with cache := mapSet s.cache ("idea:" ++ iid) (ideaEntry i now) }) := by
  simp [BlogIdeaService.getIdeaById, Cache.get, hmiss, hi, Cache.set,
    BlogIdeaService.CACHE_TTL, ideaEntry]

/-- Symbolic execution of a successful `updatePost` in the regime every
claim exercises: the post and its owning idea resolve, any requested status
change is legal (or a no-op), and no outline payload rides along (so the
auto-advance is not triggered). -/
theorem updatePost_ok
    (s : SvcState) (pid iid : String) (p : BlogPost) (idea : BlogIdea)
    (u : UpdatePostRequest) (now : Int)
    (hp : dbGet s.posts pid = some p)
    (hiid : p.ideaId = iid) (hne : ¬ (iid = ""))
    (hii : idea.id = iid)
    (hmissI : mapLookup s.cache ("idea:" ++ iid) = none)
    (hidea : dbGet s.ideas iid = some idea)
    (hval : ∀ st, u.status = some st →
      st = p.status ∨ st ∈ BlogPostService.validTransitions p.status)
    (hnoauto : u.outline = none) :
    BlogPostService.updatePost s pid u now =
      (.ok (BlogPostService.applyPostUpdate p u now),
       { posts := dbSet s.posts pid (BlogPostService.applyPostUpdate p u now)
         ideas := if (BlogPostService.applyPostUpdate p u now).status = .PUBLISHED
                  then dbSet s.ideas iid { idea with status := .USED }
                  else s.ideas
         cache := mapDelete ((mapSet s.cache ("idea:" ++ iid)
                    (ideaEntry idea now)).filter
                    (fun kv => decide ("posts" ∉ kv.2.tags))) ("post:" ++ pid)
         events := if u.status = some .REGENRATE
                   then s.events ++ ["post.regenerate"] else s.events }) := by
  have hgi : BlogPostService.getIdeaByPostId s pid now =
      (.ok idea, { s with cache := mapSet s.cache ("idea:" ++ iid) (ideaEntry idea now) }) := by
    simp only [BlogPostService.getIdeaByPostId, hp, hiid]
    rw [if_neg hne]
    exact getIdeaById_miss s iid idea now hmissI hidea
  have hval' : (match u.status with
      | some st => if st ≠ p.status
          then BlogPostService.validateStatusTransition p.status st
          else Except.ok ()
      | none => Except.ok ()) = (Except.ok () : Except SvcError Unit) := by
    match hu : u.status with
    | none => rfl
    | some st =>
        by_cases he : st = p.status
        · simp [he]
        · rcases hval st hu with h | h
          · exact absurd h he
          · simp [he, BlogPostService.validateStatusTransition, h]
  simp only [BlogPostService.updatePost, hgi, hp]
  rw [hval']
  simp only [hnoauto, Option.isSome_none, Bool.false_eq_true, false_and,
    if_false, dbGet_dbSet_self, hii]
  by_cases hpub : (BlogPostService.applyPostUpdate p u now).status
      = PostStatus.PUBLISHED
  · rw [if_pos hpub]
    simp only [BlogIdeaService.updateIdeaStatus, hidea]
    by_cases hreg : u.status = some PostStatus.REGENRATE
    · simp [Cache.delByTag, Cache.del, hreg, hpub, decide_not, hii]
    · simp [Cache.delByTag, Cache.del, hreg, hpub, decide_not, hii]
  · rw [if_neg hpub]
    by_cases hreg : u.status = some PostStatus.REGENRATE
    · simp [Cache.delByTag, Cache.del, hreg, hpub, decide_not, hii]
    · simp [Cache.delByTag, Cache.del, hreg, hpub, decide_not, hii]

/-- Symbolic execution of a successful `updatePostStatus`: under a read
that resolves the post (leaving exactly its fresh cache entry), a coherent
owning idea, and a target in the allowed set, the operation succeeds; on a
first transition into PUBLISHED the idea is marked (when UNUSED) and in
every path whose resulting status is PUBLISHED the idea ends USED. -/
theorem updatePostStatus_ok_spec
    (s s₁ : SvcState) (pid iid : String) (p : BlogPost) (idea : BlogIdea)
    (st : UpdatePostStatusRequest) (now : Int)
    (hgp : BlogPostService.getPostById s pid now = (.ok p, s₁))
    (hposts : s₁.posts = s.posts) (hideas : s₁.ideas = s.ideas)
    (hevents : s₁.events = s.events)
    (hcache : s₁.cache = [("post:" ++ pid, postEntry p now)])
    (hp : dbGet s.posts pid = some p)
    (hiid : p.ideaId = iid) (hneid : ¬ (iid = "")) (hii : idea.id = iid)
    (hidea : dbGet s.ideas iid = some idea)
    (hmem : st.status ∈ BlogPostService.validTransitions p.status) :
    BlogPostService.updatePostStatus s pid st now =
      (.ok (BlogPostService.applyPostUpdate p (BlogPostService.statusUpdateData p st now) now),
       { posts := dbSet s.posts pid
           (BlogPostService.applyPostUpdate p (BlogPostService.statusUpdateData p st now) now)
         ideas := if st.status = .PUBLISHED
                  then dbSet s.ideas iid { idea with status := .USED }
                  else s.ideas
         cache := [("idea:" ++ iid,
           ideaEntry (if st.status = .PUBLISHED ∧ p.status ≠ .PUBLISHED ∧ idea.status = .UNUSED
                      then { idea with status := .USED } else idea) now)]
         events := if st.status = .REGENRATE
                   then s.events ++ ["post.regenerate"] else s.events }) := by
  have hvalok : BlogPostService.validateStatusTransition p.status st.status
      = .ok () := by
    simp [BlogPostService.validateStatusTransition, hmem]
  have hmiss₁ : mapLookup s₁.cache ("idea:" ++ iid) = none := by
    rw [hcache]
    exact mapLookup_cons_ne _ _ _ _ (post_key_ne_idea_key pid iid) 
  have hval : ∀ st', (BlogPostService.statusUpdateData p st now).status = some st' →
      st' = p.status ∨ st' ∈ BlogPostService.validTransitions p.status := by
    intro st' h
    simp [BlogPostService.statusUpdateData] at h
    exact Or.inr (h ▸ hmem)
  simp only [BlogPostService.updatePostStatus, hgp, hvalok]
  by_cases hfp : st.status = .PUBLISHED ∧ p.status ≠ .PUBLISHED
  · have hguard : st.status = .PUBLISHED ∧ p.status ≠ .PUBLISHED ∧ p.ideaId ≠ "" :=
      ⟨hfp.1, hfp.2, by rw [hiid]; exact hneid⟩
    rw [if_pos hguard]
    have hidea₁ : dbGet s₁.ideas iid = some idea := by rw [hideas]; exact hidea
    match hst : idea.status with
    | .UNUSED =>
        have hmark : BlogIdeaService.markIdeaAsUsed s₁ iid =
            (.ok (), { s₁ with ideas := dbSet s₁.ideas iid { idea with status := .USED },
                               cache := (Cache.delByTag s₁.cache "ideas").2 }) := by
          simp [BlogIdeaService.markIdeaAsUsed, hidea₁, hst]
        rw [hiid, hmark]
        have hdel : (Cache.delByTag s₁.cache "ideas").2 = s₁.cache := by
          rw [hcache]; simp [Cache.delByTag, postEntry]
        rw [hdel]
        rw [updatePost_ok _ pid iid p { idea with status := .USED } _ now
          (by simpa [hposts] using hp) hiid hneid (by simpa using hii)
          (by rw [hcache]; exact mapLookup_cons_ne _ _ _ _ (post_key_ne_idea_key pid iid))
          (by simp [dbGet_dbSet_self]) hval rfl]
        have happ : (BlogPostService.applyPostUpdate p (BlogPostService.statusUpdateData p st now) now).status = st.status := by
          simp [BlogPostService.applyPostUpdate, BlogPostService.statusUpdateData]
        simp only [happ, hfp.1, hposts, hideas, hevents, hcache, dbSet_dbSet]
        simp [mapSet, mapDelete, post_key_ne_idea_key pid iid, postEntry, ideaEntry, hfp, hst,
          Ne.symm (post_key_ne_idea_key pid iid), BlogPostService.statusUpdateData, hfp.1]
    | .USED =>
        have hmark : BlogIdeaService.markIdeaAsUsed s₁ iid = (.error (.validationError "Idea is already used"), s₁) := by
          simp [BlogIdeaService.markIdeaAsUsed, hidea₁, hst]
        rw [hiid, hmark]
        rw [updatePost_ok _ pid iid p idea _ now
          (by simpa [hposts] using hp) hiid hneid hii hmiss₁ hidea₁ hval rfl]
        have happ : (BlogPostService.applyPostUpdate p (BlogPostService.statusUpdateData p st now) now).status = st.status := by
          simp [BlogPostService.applyPostUpdate, BlogPostService.statusUpdateData]
        simp only [happ, hfp.1, hposts, hideas, hevents, hcache]
        simp [mapSet, mapDelete, post_key_ne_idea_key pid iid, postEntry, ideaEntry, hfp, hst,
          Ne.symm (post_key_ne_idea_key pid iid), BlogPostService.statusUpdateData, hfp.1]
    | .PROCESSING =>
        have hmark : BlogIdeaService.markIdeaAsUsed s₁ iid = (.error (.validationError "Idea is already processing"), s₁) := by
          simp [BlogIdeaService.markIdeaAsUsed, hidea₁, hst]
        rw [hiid, hmark]
        rw [updatePost_ok _ pid iid p idea _ now
          (by simpa [hposts] using hp) hiid hneid hii hmiss₁ hidea₁ hval rfl]
        have happ : (BlogPostService.applyPostUpdate p (BlogPostService.statusUpdateData p st now) now).status = st.status := by
          simp [BlogPostService.applyPostUpdate, BlogPostService.statusUpdateData]
        simp only [happ, hfp.1, hposts, hideas, hevents, hcache]
        simp [mapSet, mapDelete, post_key_ne_idea_key pid iid, postEntry, ideaEntry, hfp, hst,
          Ne.symm (post_key_ne_idea_key pid iid), BlogPostService.statusUpdateData, hfp.1]
  · rw [if_neg (by intro h; exact hfp ⟨h.1, h.2.1⟩)]
    have hidea₁ : dbGet s₁.ideas iid = some idea := by rw [hideas]; exact hidea
    rw [updatePost_ok _ pid iid p idea _ now
      (by simpa [hposts] using hp) hiid hneid hii hmiss₁ hidea₁ hval rfl]
    have happ : (BlogPostService.applyPostUpdate p (BlogPostService.statusUpdateData p st now) now).status = st.status := by
      simp [BlogPostService.applyPostUpdate, BlogPostService.statusUpdateData]
    simp only [happ, hposts, hideas, hevents, hcache]
    simp [mapSet, mapDelete, post_key_ne_idea_key pid iid, postEntry, ideaEntry, hfp,
      Ne.symm (post_key_ne_idea_key pid iid), BlogPostService.statusUpdateData]
    rw [if_neg (fun h => hfp ⟨h.1, h.2.1⟩)]

/-- `updatePostStatus` on a target outside the allowed set: the validation
error propagates and nothing is written. -/
theorem updatePostStatus_invalid
    (s s₁ : SvcState) (pid : String) (p : BlogPost)
    (st : UpdatePostStatusRequest) (now : Int)
    (hgp : BlogPostService.getPostById s pid now = (.ok p, s₁))
    (hmem : st.status ∉ BlogPostService.validTransitions p.status) :
    BlogPostService.updatePostStatus s pid st now =
      (.error (.validationError ("Invalid status transition from "
        ++ p.status.str ++ " to " ++ st.status.str)), s₁) := by
  simp [BlogPostService.updatePostStatus, hgp,
    BlogPostService.validateStatusTransition, hmem]

/-- Invalidation postcondition of `delByTag`: no entry with the tag
survives. -/
theorem noTagged_delByTag (c : Cache CVal) (t : String) :
    noTagged (Cache.delByTag c t).2 t := by
  intro kv hkv
  simp [Cache.delByTag, List.mem_filter] at hkv
  exact hkv.2

/-- The bare status write `updateIdeaStatus` never touches the cache. -/
theorem updateIdeaStatus_cache (s : SvcState) (iid : String) (st : IdeaStatus) :
    (BlogIdeaService.updateIdeaStatus s iid st).2.cache = s.cache := by
  unfold BlogIdeaService.updateIdeaStatus
  split <;> rfl

/-- The single fresh idea entry left by a status-update flow carries only
the `ideas` tag. -/
theorem noTagged_concrete_idea (iid : String) (i : BlogIdea) (now : Int) :
    noTagged [("idea:" ++ iid, ideaEntry i now)] "posts" := by
  intro kv hkv
  simp at hkv
  subst hkv
  simp [ideaEntry]

/-- After a successful `pickNextIdea` from a cold cache, the idea-list view
cached during the read is still present (tagged `ideas`) when the operation
returns: the PROCESSING write did not invalidate it. -/
theorem pickNextIdea_keeps_ideas_entry (s : SvcState) (now : Int)
    (i : BlogIdea) (s' : SvcState)
    (hc : s.cache = [])
    (h : BlogIdeaService.pickNextIdea s now = (.ok (some i), s')) :
    ∃ e, mapLookup s'.cache (BlogIdeaService.ideaFiltersKey (some .UNUSED))
        = some e ∧ "ideas" ∈ e.tags := by
  unfold BlogIdeaService.pickNextIdea BlogIdeaService.getUnusedIdeas
    BlogIdeaService.getAllIdeas at h
  rw [hc] at h
  dsimp only [Cache.get, mapLookup] at h
  split at h
  · simp at h
  · split at h
    · simp at h
    · split at h
      · simp at h
      · rename_i sel rest a s₂ hupd
        injection h with h1 h2
        subst h2
        have h4 := congrArg (fun x => x.2.cache) hupd
        dsimp only [] at h4
        rw [updateIdeaStatus_cache] at h4
        rw [← h4]
        dsimp only []
        exact ⟨⟨CVal.ideaList (BlogIdeaService.sortIdeasByCreatedDesc s.ideas),
            now + 300000, ["ideas"], now⟩,
          by simp [Cache.set, mapSet, mapLookup, BlogIdeaService.CACHE_TTL],
          by simp⟩

/-- Floor division by a day distributes over adding whole days. -/
theorem fdiv_add_mul_day (X k : Int) :
    Int.fdiv (X + k * msPerDay) msPerDay = Int.fdiv X msPerDay + k := by
  rw [Int.fdiv_eq_ediv _ (by norm_num [msPerDay] : (0:Int) ≤ msPerDay),
    Int.fdiv_eq_ediv _ (by norm_num [msPerDay] : (0:Int) ≤ msPerDay),
    Int.add_mul_ediv_right _ _ (by norm_num [msPerDay] : (msPerDay:Int) ≠ 0)]

theorem aligned_dvd (I X : Int) :
    I ∣ Int.fdiv (X + (I - Int.tmod (Int.fdiv X msPerDay) I) * msPerDay)
      msPerDay := by
  rw [fdiv_add_mul_day]
  have hid := Int.tdiv_add_tmod (Int.fdiv X msPerDay) I
  exact ⟨Int.tdiv (Int.fdiv X msPerDay) I + 1, by rw [mul_add, mul_one]; linarith⟩

theorem computeNextSlots_isSlot (cfg : CadenceConfig) (now : Int)
    (hH0 : 0 ≤ cfg.publishHour) (hH : cfg.publishHour ≤ 23) :
    isSlotInstant cfg (computeNextSlots now cfg).scheduledAt
    ∧ (computeNextSlots now cfg).createAt
        = (computeNextSlots now cfg).scheduledAt
            - cfg.draftLeadHours * msPerHour := by
  have hHlow : 0 ≤ cfg.publishHour * msPerHour :=
    mul_nonneg hH0 (by norm_num [msPerHour])
  have hHhigh : cfg.publishHour * msPerHour < msPerDay := by
    unfold msPerHour msPerDay
    nlinarith
  have hcand : ∀ X : Int, ((localDayStart cfg.offsetMs X
      + cfg.publishHour * msPerHour) + cfg.offsetMs) % msPerDay
      = cfg.publishHour * msPerHour := by
    intro X
    have h1 : localDayStart cfg.offsetMs X + cfg.publishHour * msPerHour
        + cfg.offsetMs
        = cfg.publishHour * msPerHour
          + (Int.fdiv (X + cfg.offsetMs) msPerDay) * msPerDay := by
      unfold localDayStart jsFloorDiv
      ring
    rw [h1, Int.add_mul_emod_self, Int.emod_eq_of_lt hHlow hHhigh]
  have hpres : ∀ X k : Int,
      (X + cfg.offsetMs) % msPerDay = cfg.publishHour * msPerHour →
      ((X + k * msPerDay) + cfg.offsetMs) % msPerDay
        = cfg.publishHour * msPerHour := by
    intro X k hX
    calc (X + k * msPerDay + cfg.offsetMs) % msPerDay
        = (X + cfg.offsetMs + k * msPerDay) % msPerDay := by ring_nf
      _ = (X + cfg.offsetMs) % msPerDay := Int.add_mul_emod_self
      _ = _ := hX
  unfold computeNextSlots jsFloorDiv
  dsimp only []
  refine ⟨⟨?_, ?_⟩, rfl⟩
  · split <;> split
    · exact hpres _ _ (hpres _ _ (hcand now))
    · exact hpres _ _ (hcand now)
    · exact hpres _ _ (hcand now)
    · exact hcand now
  · split <;> split
    · exact aligned_dvd _ _
    · rename_i h1 h2
      exact Int.dvd_of_tmod_eq_zero (not_not.mp h2)
    · exact aligned_dvd _ _
    · rename_i h1 h2
      exact Int.dvd_of_tmod_eq_zero (not_not.mp h2)

theorem isSlot_step (cfg : CadenceConfig) (P : Int)
    (hslot : isSlotInstant cfg P) :
    isSlotInstant cfg (P + 2 * cfg.intervalDays * msPerDay) := by
  obtain ⟨h1, h2⟩ := hslot
  constructor
  · calc (P + 2 * cfg.intervalDays * msPerDay + cfg.offsetMs) % msPerDay
        = (P + cfg.offsetMs + (2 * cfg.intervalDays) * msPerDay) % msPerDay := by
          ring_nf
      _ = (P + cfg.offsetMs) % msPerDay := Int.add_mul_emod_self
      _ = _ := h1
  · rw [show P + 2 * cfg.intervalDays * msPerDay
        = P + (2 * cfg.intervalDays) * msPerDay from by ring,
      fdiv_add_mul_day]
    exact dvd_add h2 ⟨2, by ring⟩

theorem computeNextSlots_step (cfg : CadenceConfig) (P : Int)
    (hslot : isSlotInstant cfg P) :
    computeNextSlots (P + cfg.intervalDays * msPerDay) cfg
      = ⟨P + 2 * cfg.intervalDays * msPerDay,
         P + 2 * cfg.intervalDays * msPerDay
           - cfg.draftLeadHours * msPerHour⟩ := by
  obtain ⟨hhour, hdvd⟩ := hslot
  have hq : msPerDay * ((P + cfg.offsetMs) / msPerDay)
      = P + cfg.offsetMs - cfg.publishHour * msPerHour := by
    have hmod := Int.emod_def (P + cfg.offsetMs) msPerDay
    rw [hhour] at hmod
    linarith
  have hcand : localDayStart cfg.offsetMs (P + cfg.intervalDays * msPerDay)
      + cfg.publishHour * msPerHour = P + cfg.intervalDays * msPerDay := by
    unfold localDayStart jsFloorDiv
    rw [show P + cfg.intervalDays * msPerDay + cfg.offsetMs
        = (P + cfg.offsetMs) + cfg.intervalDays * msPerDay from by ring,
      fdiv_add_mul_day,
      Int.fdiv_eq_ediv _ (by norm_num [msPerDay] : (0:Int) ≤ msPerDay)]
    linear_combination hq
  have hdays : Int.fdiv (P + cfg.intervalDays * msPerDay
      + cfg.intervalDays * msPerDay) msPerDay
      = Int.fdiv P msPerDay + 2 * cfg.intervalDays := by
    rw [show P + cfg.intervalDays * msPerDay + cfg.intervalDays * msPerDay
        = P + (2 * cfg.intervalDays) * msPerDay from by ring,
      fdiv_add_mul_day]
  have hr : Int.tmod (Int.fdiv (P + cfg.intervalDays * msPerDay
      + cfg.intervalDays * msPerDay) msPerDay) cfg.intervalDays = 0 := by
    rw [hdays]
    exact Int.tmod_eq_zero_of_dvd (dvd_add hdvd ⟨2, by ring⟩)
  unfold computeNextSlots jsFloorDiv
  dsimp only []
  rw [hcand, if_pos (le_refl _), hr]
  simp only [ne_eq, not_true_eq_false, if_false, ite_false]
  rw [ScheduleSlots.mk.injEq]
  constructor <;> ring

theorem upcomingAux_spec (cfg : CadenceConfig) :
    ∀ (n : Nat) (cur : ScheduleSlots),
    isSlotInstant cfg cur.scheduledAt →
    cur.createAt = cur.scheduledAt - cfg.draftLeadHours * msPerHour →
    (upcomingAux cfg n cur).length = n
    ∧ List.Chain' (fun a b => b.1 - a.1 = 2 * cfg.intervalDays * msPerDay)
        (upcomingAux cfg n cur)
    ∧ (∀ pr ∈ upcomingAux cfg n cur,
        pr.2 = pr.1 - cfg.draftLeadHours * msPerHour ∧ isSlotInstant cfg pr.1)
    ∧ (upcomingAux cfg n cur).head?
        = if n = 0 then none else some (cur.scheduledAt, cur.createAt)
  | 0, cur, _, _ => by simp [upcomingAux]
  | (n+1), cur, hslot, hcreate => by
      rw [upcomingAux, computeNextSlots_step cfg cur.scheduledAt hslot]
      obtain ⟨ihlen, ihchain, ihmem, ihhead⟩ := upcomingAux_spec cfg n
        ⟨cur.scheduledAt + 2 * cfg.intervalDays * msPerDay,
         cur.scheduledAt + 2 * cfg.intervalDays * msPerDay
           - cfg.draftLeadHours * msPerHour⟩
        (isSlot_step cfg _ hslot) rfl
      refine ⟨by simpa using ihlen, ?_, ?_, by simp⟩
      · rw [List.chain'_cons']
        refine ⟨?_, ihchain⟩
        intro b hb
        rw [ihhead] at hb
        rcases n with _ | m
        · simp at hb
        · simp only [Nat.succ_ne_zero, if_false, Option.mem_def,
            Option.some.injEq] at hb
          subst hb
          ring
      · intro pr hpr
        rcases List.mem_cons.mp hpr with h | h
        · subst h
          exact ⟨hcreate, hslot⟩
        · exact ihmem pr h

/-! ### Claim theorems -/

/-- C3: for every creation request, `createPost` returns and stores a post
whose status is BRIEF regardless of any status value in the request (the
model request even carries one, and it is never read), with `publishedAt`
null and the freshly generated id and creation/update timestamps. -/
theorem c3_createPost_always_brief (s : SvcState)
    (postData : CreatePostRequest) (freshId : String) (now : Int) :
    ∃ post : BlogPost,
      (BlogPostService.createPost s postData freshId now).1 = .ok post
      ∧ post.status = .BRIEF
      ∧ post.publishedAt = none
      ∧ post.id = freshId
      ∧ post.createdAt = now
      ∧ post.updatedAt = now
      ∧ dbGet (BlogPostService.createPost s postData freshId now).2.posts
          freshId = some post := by
  refine ⟨_, rfl, rfl, rfl, rfl, rfl, rfl, ?_⟩
  simp [BlogPostService.createPost, dbGet_dbSet_self]

/-- C8: cache round-trip.  After `set(k, v, {ttl})` with a positive ttl, a
`get(k)` at any instant up to the expiry instant `now + ttl·1000` returns
`v` and leaves the cache untouched; a `get(k)` strictly after the expiry
instant misses and removes the entry; and on any cache, `get` of a present
unexpired entry returns its value and never evicts. -/
theorem c8_cache_roundtrip {α : Type} (c : Cache α) (k : String) (v : α)
    (ttl : Int) (tags : Option (List String)) (now t : Int) (hpos : 0 < ttl) :
    ((t ≤ now + ttl * 1000 →
      (Cache.get (Cache.set c k v (some ttl) tags now) k t).1 = some v
        ∧ (Cache.get (Cache.set c k v (some ttl) tags now) k t).2
            = Cache.set c k v (some ttl) tags now)
    ∧ (t > now + ttl * 1000 →
      (Cache.get (Cache.set c k v (some ttl) tags now) k t).1 = none
        ∧ mapLookup (Cache.get (Cache.set c k v (some ttl) tags now) k t).2 k
            = none)
    ∧ (∀ (c' : Cache α) (e : CacheEntry α) (t' : Int),
        mapLookup c' k = some e → t' ≤ e.expiresAt →
          Cache.get c' k t' = (some e.data, c'))) := by
  have hne : ¬ (ttl = 0) := by omega
  have hset : Cache.set c k v (some ttl) tags now
      = mapSet c k ⟨v, now + ttl * 1000,
          (match tags with | some l => l | none => []), now⟩ := by
    simp [Cache.set, hne]
  refine ⟨?_, ?_, ?_⟩
  · intro ht
    have hlt : ¬ (now + ttl * 1000 < t) := by omega
    rw [hset]
    simp [Cache.get, mapLookup_mapSet_self, hlt]
  · intro ht
    rw [hset]
    simp [Cache.get, mapLookup_mapSet_self, ht, mapLookup_mapDelete_self]
  · intro c' e t' hl ht
    have hlt : ¬ (e.expiresAt < t') := by omega
    simp [Cache.get, hl, hlt]

/-- Witness for C8 at `k = "k"`, `v = 1`, `ttl = 10`, `now = 0`, `t = 5`. -/
theorem c8_cache_roundtrip_witness :
    (0 : Int) < 10 ∧
    ((((5 : Int) ≤ 0 + 10 * 1000 →
      (Cache.get (Cache.set ([] : Cache Nat) "k" 1 (some 10) none 0) "k" 5).1
          = some 1
        ∧ (Cache.get (Cache.set ([] : Cache Nat) "k" 1 (some 10) none 0)
            "k" 5).2
            = Cache.set ([] : Cache Nat) "k" 1 (some 10) none 0)
    ∧ ((5 : Int) > 0 + 10 * 1000 →
      (Cache.get (Cache.set ([] : Cache Nat) "k" 1 (some 10) none 0) "k" 5).1
          = none
        ∧ mapLookup (Cache.get (Cache.set ([] : Cache Nat) "k" 1 (some 10)
            none 0) "k" 5).2 "k" = none)
    ∧ (∀ (c' : Cache Nat) (e : CacheEntry Nat) (t' : Int),
        mapLookup c' "k" = some e → t' ≤ e.expiresAt →
          Cache.get c' "k" t' = (some e.data, c')))) :=
  ⟨by decide, c8_cache_roundtrip ([] : Cache Nat) "k" 1 10 none 0 5 (by decide)⟩

/-- C1: on a stored post read from the store, a status-change request whose
(current, target) pair is not in the transition table — including unlisted
same-status pairs such as BRIEF to BRIEF — fails with the invalid-transition
`ValidationError` and leaves the stored post (and ideas) unchanged, while a
pair present in the table is accepted and the target status is stored. -/
theorem c1_invalid_transitions_rejected
    (s : SvcState) (pid iid : String) (p : BlogPost) (idea : BlogIdea)
    (st : UpdatePostStatusRequest) (now : Int)
    (hc : s.cache = [])
    (hp : dbGet s.posts pid = some p)
    (hiid : p.ideaId = iid) (hneid : iid ≠ "") (hii : idea.id = iid)
    (hidea : dbGet s.ideas iid = some idea) :
    (st.status ∉ BlogPostService.validTransitions p.status →
      (BlogPostService.updatePostStatus s pid st now).1
        = .error (.validationError ("Invalid status transition from "
            ++ p.status.str ++ " to " ++ st.status.str))
      ∧ (BlogPostService.updatePostStatus s pid st now).2.posts = s.posts
      ∧ (BlogPostService.updatePostStatus s pid st now).2.ideas = s.ideas)
    ∧ (st.status ∈ BlogPostService.validTransitions p.status →
      ∃ q, (BlogPostService.updatePostStatus s pid st now).1 = .ok q
        ∧ dbGet (BlogPostService.updatePostStatus s pid st now).2.posts pid
            = some q
        ∧ q.status = st.status) := by
  have hmiss : mapLookup s.cache ("post:" ++ pid) = none := by
    rw [hc]; rfl
  have hgp := getPostById_miss s pid p now hmiss hp
  rw [hc] at hgp
  constructor
  · intro hmem
    rw [updatePostStatus_invalid s _ pid p st now hgp hmem]
    exact ⟨rfl, rfl, rfl⟩
  · intro hmem
    rw [updatePostStatus_ok_spec s _ pid iid p idea st now hgp rfl rfl rfl
      (by simp [mapSet]) hp hiid hneid hii hidea hmem]
    refine ⟨_, rfl, ?_, ?_⟩
    · simp [dbGet_dbSet_self]
    · simp [BlogPostService.applyPostUpdate, BlogPostService.statusUpdateData]

/-- Witness for C1: an APPROVED post with an UNUSED owning idea, target
DRAFT (present in the table; the other implication is instantiated too). -/
theorem c1_invalid_transitions_rejected_witness :
    (stApprovedUnused.cache = []
      ∧ dbGet stApprovedUnused.posts "p1" = some postApproved
      ∧ postApproved.ideaId = "i1"
      ∧ ("i1" : String) ≠ ""
      ∧ ideaUnused.id = "i1"
      ∧ dbGet stApprovedUnused.ideas "i1" = some ideaUnused)
    ∧ ((PostStatus.DRAFT ∉ BlogPostService.validTransitions postApproved.status →
      (BlogPostService.updatePostStatus stApprovedUnused "p1"
          ⟨.DRAFT, none, none⟩ 0).1
        = .error (.validationError ("Invalid status transition from "
            ++ postApproved.status.str ++ " to " ++ PostStatus.DRAFT.str))
      ∧ (BlogPostService.updatePostStatus stApprovedUnused "p1"
          ⟨.DRAFT, none, none⟩ 0).2.posts = stApprovedUnused.posts
      ∧ (BlogPostService.updatePostStatus stApprovedUnused "p1"
          ⟨.DRAFT, none, none⟩ 0).2.ideas = stApprovedUnused.ideas)
    ∧ (PostStatus.DRAFT ∈ BlogPostService.validTransitions postApproved.status →
      ∃ q, (BlogPostService.updatePostStatus stApprovedUnused "p1"
          ⟨.DRAFT, none, none⟩ 0).1 = .ok q
        ∧ dbGet (BlogPostService.updatePostStatus stApprovedUnused "p1"
            ⟨.DRAFT, none, none⟩ 0).2.posts "p1" = some q
        ∧ q.status = PostStatus.DRAFT)) :=
  ⟨⟨by decide, by decide, by decide, by decide, by decide, by decide⟩,
    c1_invalid_transitions_rejected stApprovedUnused "p1" "i1" postApproved
      ideaUnused ⟨.DRAFT, none, none⟩ 0 (by decide) (by decide) (by decide)
      (by decide) (by decide) (by decide)⟩

/-- C2: a status update targeting PUBLISHED stamps `publishedAt := now` on
the first transition into PUBLISHED, while a PUBLISHED-to-PUBLISHED update
leaves `publishedAt` exactly as stored; in both cases the content-stage
fields (brief, outline, draft, seo) are untouched by the status update. -/
theorem c2_publishedAt_set_once
    (s : SvcState) (pid iid : String) (p : BlogPost) (idea : BlogIdea)
    (st : UpdatePostStatusRequest) (now : Int)
    (hc : s.cache = [])
    (hp : dbGet s.posts pid = some p)
    (hiid : p.ideaId = iid) (hneid : iid ≠ "") (hii : idea.id = iid)
    (hidea : dbGet s.ideas iid = some idea)
    (hst : st.status = .PUBLISHED) :
    (p.status ≠ .PUBLISHED →
      PostStatus.PUBLISHED ∈ BlogPostService.validTransitions p.status →
      ∃ q, (BlogPostService.updatePostStatus s pid st now).1 = .ok q
        ∧ dbGet (BlogPostService.updatePostStatus s pid st now).2.posts pid
            = some q
        ∧ q.publishedAt = some now
        ∧ q.brief = p.brief ∧ q.outline = p.outline
        ∧ q.draft = p.draft ∧ q.seo = p.seo)
    ∧ (p.status = .PUBLISHED →
      ∃ q, (BlogPostService.updatePostStatus s pid st now).1 = .ok q
        ∧ dbGet (BlogPostService.updatePostStatus s pid st now).2.posts pid
            = some q
        ∧ q.publishedAt = p.publishedAt
        ∧ q.brief = p.brief ∧ q.outline = p.outline
        ∧ q.draft = p.draft ∧ q.seo = p.seo) := by
  have hmiss : mapLookup s.cache ("post:" ++ pid) = none := by
    rw [hc]; rfl
  have hgp := getPostById_miss s pid p now hmiss hp
  rw [hc] at hgp
  constructor
  · intro hnp hmem
    rw [updatePostStatus_ok_spec s _ pid iid p idea st now hgp rfl rfl rfl
      (by simp [mapSet]) hp hiid hneid hii hidea (by rw [hst]; exact hmem)]
    refine ⟨_, rfl, by simp [dbGet_dbSet_self], ?_, ?_, ?_, ?_, ?_⟩ <;>
      simp [BlogPostService.applyPostUpdate, BlogPostService.statusUpdateData,
        hst, hnp]
  · intro hpub
    have hmem : st.status ∈ BlogPostService.validTransitions p.status := by
      rw [hst, hpub]; decide
    rw [updatePostStatus_ok_spec s _ pid iid p idea st now hgp rfl rfl rfl
      (by simp [mapSet]) hp hiid hneid hii hidea hmem]
    refine ⟨_, rfl, by simp [dbGet_dbSet_self], ?_, ?_, ?_, ?_, ?_⟩ <;>
      simp [BlogPostService.applyPostUpdate, BlogPostService.statusUpdateData,
        hst, hpub]

/-- Witness for C2: publishing the APPROVED fixture post at instant 77. -/
theorem c2_publishedAt_set_once_witness :
    (stApprovedUnused.cache = []
      ∧ dbGet stApprovedUnused.posts "p1" = some postApproved
      ∧ postApproved.ideaId = "i1"
      ∧ ("i1" : String) ≠ ""
      ∧ ideaUnused.id = "i1"
      ∧ dbGet stApprovedUnused.ideas "i1" = some ideaUnused
      ∧ (⟨.PUBLISHED, none, none⟩ : UpdatePostStatusRequest).status
          = PostStatus.PUBLISHED)
    ∧ ((postApproved.status ≠ .PUBLISHED →
      PostStatus.PUBLISHED ∈ BlogPostService.validTransitions
          postApproved.status →
      ∃ q, (BlogPostService.updatePostStatus stApprovedUnused "p1"
          ⟨.PUBLISHED, none, none⟩ 77).1 = .ok q
        ∧ dbGet (BlogPostService.updatePostStatus stApprovedUnused "p1"
            ⟨.PUBLISHED, none, none⟩ 77).2.posts "p1" = some q
        ∧ q.publishedAt = some 77
        ∧ q.brief = postApproved.brief ∧ q.outline = postApproved.outline
        ∧ q.draft = postApproved.draft ∧ q.seo = postApproved.seo)
    ∧ (postApproved.status = .PUBLISHED →
      ∃ q, (BlogPostService.updatePostStatus stApprovedUnused "p1"
          ⟨.PUBLISHED, none, none⟩ 77).1 = .ok q
        ∧ dbGet (BlogPostService.updatePostStatus stApprovedUnused "p1"
            ⟨.PUBLISHED, none, none⟩ 77).2.posts "p1" = some q
        ∧ q.publishedAt = postApproved.publishedAt
        ∧ q.brief = postApproved.brief ∧ q.outline = postApproved.outline
        ∧ q.draft = postApproved.draft ∧ q.seo = postApproved.seo)) :=
  ⟨⟨by decide, by decide, by decide, by decide, by decide, by decide,
      by decide⟩,
    c2_publishedAt_set_once stApprovedUnused "p1" "i1" postApproved
      ideaUnused ⟨.PUBLISHED, none, none⟩ 77 (by decide) (by decide)
      (by decide) (by decide) (by decide) (by decide) (by decide)⟩

/-- C4: `publishPost` rejects every current status other than APPROVED and
SCHEDULED with the publish-precondition `ValidationError` (the spec-level
`InvalidOperation`), leaving the stores unchanged; for APPROVED or
SCHEDULED it delegates the publish to `updatePostStatus(..., PUBLISHED)` —
stated as a literal equation — and the post ends PUBLISHED with
`publishedAt = now`. -/
theorem c4_publishPost_only_approved_or_scheduled
    (s : SvcState) (pid iid : String) (p : BlogPost) (idea : BlogIdea)
    (now : Int)
    (hc : s.cache = [])
    (hp : dbGet s.posts pid = some p)
    (hiid : p.ideaId = iid) (hneid : iid ≠ "") (hii : idea.id = iid)
    (hidea : dbGet s.ideas iid = some idea) :
    (p.status ≠ .APPROVED ∧ p.status ≠ .SCHEDULED →
      (BlogPostService.publishPost s pid now).1
        = .error (.validationError
            "Only approved or scheduled posts can be published")
      ∧ (BlogPostService.publishPost s pid now).2.posts = s.posts
      ∧ (BlogPostService.publishPost s pid now).2.ideas = s.ideas)
    ∧ (p.status = .APPROVED ∨ p.status = .SCHEDULED →
      BlogPostService.publishPost s pid now
        = BlogPostService.updatePostStatus
            { posts := s.posts
              ideas := dbSet s.ideas iid
                (BlogIdeaService.applyIdeaUpdate idea ⟨some .USED, none⟩ now)
              cache := [("post:" ++ pid, postEntry p now)]
              events := s.events }
            pid ⟨.PUBLISHED, some now, none⟩ now
      ∧ ∃ q, (BlogPostService.publishPost s pid now).1 = .ok q
          ∧ dbGet (BlogPostService.publishPost s pid now).2.posts pid = some q
          ∧ q.status = .PUBLISHED ∧ q.publishedAt = some now) := by
  have hmiss : mapLookup s.cache ("post:" ++ pid) = none := by rw [hc]; rfl
  have hgp := getPostById_miss s pid p now hmiss hp
  rw [hc] at hgp
  simp only [mapSet] at hgp
  have hknei := post_key_ne_idea_key pid iid
  have hgi : BlogPostService.getIdeaByPostId
      { s with cache := [("post:" ++ pid, postEntry p now)] } pid now
      = (.ok idea, { s with cache := [("post:" ++ pid, postEntry p now),
          ("idea:" ++ iid, ideaEntry idea now)] }) := by
    simp only [BlogPostService.getIdeaByPostId, hp, hiid]
    rw [if_neg hneid]
    rw [getIdeaById_miss { s with cache := [("post:" ++ pid, postEntry p now)] }
      iid idea now (by rw [mapLookup_cons_ne _ _ _ _ hknei]; rfl) hidea]
    simp [mapSet, hknei]
  have hupdI : BlogIdeaService.updateIdea
      { s with cache := [("post:" ++ pid, postEntry p now),
          ("idea:" ++ iid, ideaEntry idea now)] } iid ⟨some .USED, none⟩ now
      = (.ok (BlogIdeaService.applyIdeaUpdate idea ⟨some .USED, none⟩ now),
         { posts := s.posts
           ideas := dbSet s.ideas iid
             (BlogIdeaService.applyIdeaUpdate idea ⟨some .USED, none⟩ now)
           cache := [("post:" ++ pid, postEntry p now)]
           events := s.events }) := by
    simp [BlogIdeaService.updateIdea, hidea, Cache.delByTag, postEntry,
      ideaEntry, decide_not]
  constructor
  · intro hns
    simp only [BlogPostService.publishPost, hgp, hgi]
    rw [if_pos (by exact ⟨hns.1, hns.2⟩)]
    exact ⟨rfl, rfl, rfl⟩
  · intro hs
    have hok : BlogPostService.publishPost s pid now
        = BlogPostService.updatePostStatus
            { posts := s.posts
              ideas := dbSet s.ideas iid
                (BlogIdeaService.applyIdeaUpdate idea ⟨some .USED, none⟩ now)
              cache := [("post:" ++ pid, postEntry p now)]
              events := s.events }
            pid ⟨.PUBLISHED, some now, none⟩ now := by
      simp only [BlogPostService.publishPost, hgp, hgi]
      rw [if_neg (by rcases hs with h | h <;> simp [h]), hii, hupdI]
    refine ⟨hok, ?_⟩
    rw [hok]
    have hmem : PostStatus.PUBLISHED
        ∈ BlogPostService.validTransitions p.status := by
      rcases hs with h | h <;> rw [h] <;> decide
    have hgp₂ := getPostById_hit
      { posts := s.posts
        ideas := dbSet s.ideas iid
          (BlogIdeaService.applyIdeaUpdate idea ⟨some .USED, none⟩ now)
        cache := [("post:" ++ pid, postEntry p now)]
        events := s.events }
      pid p now (postEntry p now) (by simp [mapLookup]) rfl
      (by simp [postEntry])
    rw [updatePostStatus_ok_spec _ _ pid iid p
      (BlogIdeaService.applyIdeaUpdate idea ⟨some .USED, none⟩ now)
      ⟨.PUBLISHED, some now, none⟩ now hgp₂ rfl rfl rfl rfl hp hiid hneid
      (by simp [BlogIdeaService.applyIdeaUpdate, hii])
      (by simp [dbGet_dbSet_self]) hmem]
    refine ⟨_, rfl, by simp [dbGet_dbSet_self], ?_, ?_⟩ <;>
      simp [BlogPostService.applyPostUpdate, BlogPostService.statusUpdateData]
    rcases hs with h | h <;> simp [h]

/-- Witness for C4: publishing the APPROVED fixture post at instant 50. -/
theorem c4_publishPost_only_approved_or_scheduled_witness :
    (stApprovedUnused.cache = []
      ∧ dbGet stApprovedUnused.posts "p1" = some postApproved
      ∧ postApproved.ideaId = "i1"
      ∧ ("i1" : String) ≠ ""
      ∧ ideaUnused.id = "i1"
      ∧ dbGet stApprovedUnused.ideas "i1" = some ideaUnused)
    ∧ ((postApproved.status ≠ .APPROVED ∧ postApproved.status ≠ .SCHEDULED →
      (BlogPostService.publishPost stApprovedUnused "p1" 50).1
        = .error (.validationError
            "Only approved or scheduled posts can be published")
      ∧ (BlogPostService.publishPost stApprovedUnused "p1" 50).2.posts
          = stApprovedUnused.posts
      ∧ (BlogPostService.publishPost stApprovedUnused "p1" 50).2.ideas
          = stApprovedUnused.ideas)
    ∧ (postApproved.status = .APPROVED ∨ postApproved.status = .SCHEDULED →
      BlogPostService.publishPost stApprovedUnused "p1" 50
        = BlogPostService.updatePostStatus
            { posts := stApprovedUnused.posts
              ideas := dbSet stApprovedUnused.ideas "i1"
                (BlogIdeaService.applyIdeaUpdate ideaUnused
                  ⟨some .USED, none⟩ 50)
              cache := [("post:" ++ "p1", postEntry postApproved 50)]
              events := stApprovedUnused.events }
            "p1" ⟨.PUBLISHED, some 50, none⟩ 50
      ∧ ∃ q, (BlogPostService.publishPost stApprovedUnused "p1" 50).1 = .ok q
          ∧ dbGet (BlogPostService.publishPost stApprovedUnused "p1"
              50).2.posts "p1" = some q
          ∧ q.status = .PUBLISHED ∧ q.publishedAt = some 50)) :=
  ⟨⟨by decide, by decide, by decide, by decide, by decide, by decide⟩,
    c4_publishPost_only_approved_or_scheduled stApprovedUnused "p1" "i1"
      postApproved ideaUnused 50 (by decide) (by decide) (by decide)
      (by decide) (by decide) (by decide)⟩

/-- C5: `deletePost` fails with the delete-protection `ValidationError`
(the spec-level `Conflict`) exactly on a PUBLISHED post, removing the
record in every other status; `deleteIdea` likewise fails exactly on a
USED idea and removes the record otherwise. -/
theorem c5_delete_protected_states
    (s : SvcState) (pid iid : String) (p : BlogPost) (idea : BlogIdea)
    (now : Int)
    (hc : s.cache = [])
    (hp : dbGet s.posts pid = some p)
    (hidea : dbGet s.ideas iid = some idea) :
    ((p.status = .PUBLISHED →
      (BlogPostService.deletePost s pid now).1
        = .error (.validationError "Cannot delete a published post")
      ∧ (BlogPostService.deletePost s pid now).2.posts = s.posts)
    ∧ (p.status ≠ .PUBLISHED →
      (BlogPostService.deletePost s pid now).1 = .ok ()
      ∧ dbGet (BlogPostService.deletePost s pid now).2.posts pid = none))
    ∧ ((idea.status = .USED →
      (BlogIdeaService.deleteIdea s iid).1
        = .error (.validationError "Cannot delete an idea that has been used")
      ∧ (BlogIdeaService.deleteIdea s iid).2.ideas = s.ideas)
    ∧ (idea.status ≠ .USED →
      (BlogIdeaService.deleteIdea s iid).1 = .ok ()
      ∧ dbGet (BlogIdeaService.deleteIdea s iid).2.ideas iid = none)) := by
  have hmiss : mapLookup s.cache ("post:" ++ pid) = none := by rw [hc]; rfl
  have hgp := getPostById_miss s pid p now hmiss hp
  refine ⟨⟨?_, ?_⟩, ⟨?_, ?_⟩⟩
  · intro hpub
    rw [BlogPostService.deletePost, hgp]
    simp [hpub]
  · intro hpub
    rw [BlogPostService.deletePost, hgp]
    simp [hpub, dbGet_dbDelete_self]
  · intro hused
    simp [BlogIdeaService.deleteIdea, hidea, hused]
  · intro hused
    simp [BlogIdeaService.deleteIdea, hidea, hused, dbGet_dbDelete_self]

/-- Witness for C5: the PUBLISHED fixture post and its USED idea. -/
theorem c5_delete_protected_states_witness :
    (stPublishedUsed.cache = []
      ∧ dbGet stPublishedUsed.posts "p1" = some postPublished
      ∧ dbGet stPublishedUsed.ideas "i1" = some ideaUsedX)
    ∧ (((postPublished.status = .PUBLISHED →
      (BlogPostService.deletePost stPublishedUsed "p1" 9).1
        = .error (.validationError "Cannot delete a published post")
      ∧ (BlogPostService.deletePost stPublishedUsed "p1" 9).2.posts
          = stPublishedUsed.posts)
    ∧ (postPublished.status ≠ .PUBLISHED →
      (BlogPostService.deletePost stPublishedUsed "p1" 9).1 = .ok ()
      ∧ dbGet (BlogPostService.deletePost stPublishedUsed "p1" 9).2.posts
          "p1" = none))
    ∧ ((ideaUsedX.status = .USED →
      (BlogIdeaService.deleteIdea stPublishedUsed "i1").1
        = .error (.validationError "Cannot delete an idea that has been used")
      ∧ (BlogIdeaService.deleteIdea stPublishedUsed "i1").2.ideas
          = stPublishedUsed.ideas)
    ∧ (ideaUsedX.status ≠ .USED →
      (BlogIdeaService.deleteIdea stPublishedUsed "i1").1 = .ok ()
      ∧ dbGet (BlogIdeaService.deleteIdea stPublishedUsed "i1").2.ideas
          "i1" = none))) :=
  ⟨⟨by decide, by decide, by decide⟩,
    c5_delete_protected_states stPublishedUsed "p1" "i1" postPublished
      ideaUsedX 9 (by decide) (by decide) (by decide)⟩

/-- C10: `markIdeaAsUsed` succeeds (writing USED) exactly from UNUSED and
raises a `ValidationError` on a USED or PROCESSING idea without touching
the state; consequently, when a post whose owning idea is PROCESSING (as
after `pickNextIdea`) makes its first transition into PUBLISHED, the
best-effort `markIdeaAsUsed` propagation fails while the status update
itself still succeeds — the failure is only logged. -/
theorem c10_mark_used_only_from_unused
    (s : SvcState) (pid iid : String) (p : BlogPost) (idea : BlogIdea)
    (st : UpdatePostStatusRequest) (now : Int)
    (hc : s.cache = [])
    (hp : dbGet s.posts pid = some p)
    (hiid : p.ideaId = iid) (hneid : iid ≠ "") (hii : idea.id = iid)
    (hidea : dbGet s.ideas iid = some idea) :
    ((idea.status = .UNUSED →
      (BlogIdeaService.markIdeaAsUsed s iid).1 = .ok ()
      ∧ dbGet (BlogIdeaService.markIdeaAsUsed s iid).2.ideas iid
          = some { idea with status := .USED })
    ∧ (idea.status = .USED →
      BlogIdeaService.markIdeaAsUsed s iid
        = (.error (.validationError "Idea is already used"), s))
    ∧ (idea.status = .PROCESSING →
      BlogIdeaService.markIdeaAsUsed s iid
        = (.error (.validationError "Idea is already processing"), s)))
    ∧ (idea.status = .PROCESSING → st.status = .PUBLISHED →
      p.status ≠ .PUBLISHED →
      .PUBLISHED ∈ BlogPostService.validTransitions p.status →
      ∃ q, (BlogPostService.updatePostStatus s pid st now).1 = .ok q
        ∧ q.status = .PUBLISHED) := by
  refine ⟨⟨?_, ?_, ?_⟩, ?_⟩
  · intro hst
    simp [BlogIdeaService.markIdeaAsUsed, hidea, hst, dbGet_dbSet_self]
  · intro hst
    simp [BlogIdeaService.markIdeaAsUsed, hidea, hst]
  · intro hst
    simp [BlogIdeaService.markIdeaAsUsed, hidea, hst]
  · intro hst hpub hnp hmem
    have hmiss : mapLookup s.cache ("post:" ++ pid) = none := by rw [hc]; rfl
    have hgp := getPostById_miss s pid p now hmiss hp
    rw [hc] at hgp
    rw [updatePostStatus_ok_spec s _ pid iid p idea st now hgp rfl rfl rfl
      (by simp [mapSet]) hp hiid hneid hii hidea (by rw [hpub]; exact hmem)]
    exact ⟨_, rfl, by
      simp [BlogPostService.applyPostUpdate, BlogPostService.statusUpdateData,
        hpub]⟩

/-- Witness for C10: the APPROVED fixture post whose owning idea is
PROCESSING, published at instant 33. -/
theorem c10_mark_used_only_from_unused_witness :
    (stApprovedProcessing.cache = []
      ∧ dbGet stApprovedProcessing.posts "p1" = some postApproved
      ∧ postApproved.ideaId = "i1"
      ∧ ("i1" : String) ≠ ""
      ∧ ideaProcessing.id = "i1"
      ∧ dbGet stApprovedProcessing.ideas "i1" = some ideaProcessing)
    ∧ (((ideaProcessing.status = .UNUSED →
      (BlogIdeaService.markIdeaAsUsed stApprovedProcessing "i1").1 = .ok ()
      ∧ dbGet (BlogIdeaService.markIdeaAsUsed stApprovedProcessing
          "i1").2.ideas "i1" = some { ideaProcessing with status := .USED })
    ∧ (ideaProcessing.status = .USED →
      BlogIdeaService.markIdeaAsUsed stApprovedProcessing "i1"
        = (.error (.validationError "Idea is already used"),
            stApprovedProcessing))
    ∧ (ideaProcessing.status = .PROCESSING →
      BlogIdeaService.markIdeaAsUsed stApprovedProcessing "i1"
        = (.error (.validationError "Idea is already processing"),
            stApprovedProcessing)))
    ∧ (ideaProcessing.status = .PROCESSING →
      (⟨.PUBLISHED, none, none⟩ : UpdatePostStatusRequest).status
          = .PUBLISHED →
      postApproved.status ≠ .PUBLISHED →
      .PUBLISHED ∈ BlogPostService.validTransitions postApproved.status →
      ∃ q, (BlogPostService.updatePostStatus stApprovedProcessing "p1"
          ⟨.PUBLISHED, none, none⟩ 33).1 = .ok q
        ∧ q.status = .PUBLISHED)) :=
  ⟨⟨by decide, by decide, by decide, by decide, by decide, by decide⟩,
    c10_mark_used_only_from_unused stApprovedProcessing "p1" "i1"
      postApproved ideaProcessing ⟨.PUBLISHED, none, none⟩ 33 (by decide)
      (by decide) (by decide) (by decide) (by decide) (by decide)⟩

/-- C9, counterexample: with a cached `ideas`-tagged entry present,
`updateIdeaStatus` — a mutation of a stored Idea, and precisely the status
write `pickNextIdea` performs — succeeds, changes the stored idea, and
returns with the cache bit-for-bit unchanged: no `delByTag("ideas")` (nor
any other invalidation) happens, refuting the claim that every mutation
invalidates before returning. -/
theorem c9_every_mutation_invalidates_counterexample :
    (BlogIdeaService.updateIdeaStatus stCachedIdeas "i1" .PROCESSING).1 = .ok ()
    ∧ dbGet (BlogIdeaService.updateIdeaStatus stCachedIdeas "i1"
        .PROCESSING).2.ideas "i1" = some { ideaUnused with status := .PROCESSING }
    ∧ mapLookup (BlogIdeaService.updateIdeaStatus stCachedIdeas "i1"
        .PROCESSING).2.cache "k" = some ideasTaggedEntry
    ∧ "ideas" ∈ ideasTaggedEntry.tags := by decide

/-- C9, amended: every modeled create/update/delete/mark mutation of a
Post or Idea invalidates the cache through `delByTag` of its entity tag
before returning — except the bare status write `updateIdeaStatus`, which
performs no cache operation at all; consequently `pickNextIdea`, whose
PROCESSING write goes through `updateIdeaStatus`, returns with the
`ideas`-tagged list view it just cached still live (stale). -/
theorem c9_invalidation_amended :
    (∀ (s : SvcState) (req : CreateIdeaRequest) (fid : String) (now : Int),
      noTagged (BlogIdeaService.createIdea s req fid now).2.cache "ideas")
    ∧ (∀ (s : SvcState) (iid : String) (idea : BlogIdea)
        (u : UpdateIdeaRequest) (now : Int),
      dbGet s.ideas iid = some idea →
      noTagged (BlogIdeaService.updateIdea s iid u now).2.cache "ideas")
    ∧ (∀ (s : SvcState) (iid : String) (idea : BlogIdea),
      dbGet s.ideas iid = some idea → idea.status = .UNUSED →
      noTagged (BlogIdeaService.markIdeaAsUsed s iid).2.cache "ideas")
    ∧ (∀ (s : SvcState) (iid : String) (idea : BlogIdea),
      dbGet s.ideas iid = some idea → idea.status ≠ .USED →
      noTagged (BlogIdeaService.deleteIdea s iid).2.cache "ideas")
    ∧ (∀ (s : SvcState) (r : CreatePostRequest) (fid : String) (now : Int),
      noTagged (BlogPostService.createPost s r fid now).2.cache "posts")
    ∧ (∀ (s : SvcState) (pid : String) (p : BlogPost) (now : Int),
      s.cache = [] → dbGet s.posts pid = some p → p.status ≠ .PUBLISHED →
      noTagged (BlogPostService.deletePost s pid now).2.cache "posts")
    ∧ (∀ (s : SvcState) (pid iid : String) (p : BlogPost) (idea : BlogIdea)
        (st : UpdatePostStatusRequest) (now : Int),
      s.cache = [] → dbGet s.posts pid = some p →
      p.ideaId = iid → iid ≠ "" → idea.id = iid →
      dbGet s.ideas iid = some idea →
      st.status ∈ BlogPostService.validTransitions p.status →
      noTagged (BlogPostService.updatePostStatus s pid st now).2.cache "posts")
    ∧ (∀ (s : SvcState) (iid : String) (st : IdeaStatus),
      (BlogIdeaService.updateIdeaStatus s iid st).2.cache = s.cache)
    ∧ (∀ (s : SvcState) (now : Int) (i : BlogIdea) (s' : SvcState),
      s.cache = [] →
      BlogIdeaService.pickNextIdea s now = (.ok (some i), s') →
      ∃ e, mapLookup s'.cache (BlogIdeaService.ideaFiltersKey (some .UNUSED))
          = some e ∧ "ideas" ∈ e.tags) := by
  refine ⟨?_, ?_, ?_, ?_, ?_, ?_, ?_, ?_, ?_⟩
  · intro s req fid now
    simp only [BlogIdeaService.createIdea]
    exact noTagged_delByTag s.cache "ideas"
  · intro s iid idea u now hidea
    simp only [BlogIdeaService.updateIdea, hidea]
    exact noTagged_delByTag s.cache "ideas"
  · intro s iid idea hidea hst
    simp only [BlogIdeaService.markIdeaAsUsed, hidea, hst]
    simp
    exact noTagged_delByTag s.cache "ideas"
  · intro s iid idea hidea hst
    simp only [BlogIdeaService.deleteIdea, hidea]
    simp [hst]
    exact noTagged_delByTag s.cache "ideas"
  · intro s r fid now
    simp only [BlogPostService.createPost]
    exact noTagged_delByTag s.cache "posts"
  · intro s pid p now hc hp hst
    have hmiss : mapLookup s.cache ("post:" ++ pid) = none := by rw [hc]; rfl
    have hgp := getPostById_miss s pid p now hmiss hp
    rw [hc] at hgp
    rw [BlogPostService.deletePost, hgp]
    simp only [mapSet]
    rw [if_neg hst]
    intro kv hkv
    simp [Cache.delByTag, Cache.del, mapDelete, postEntry] at hkv
  · intro s pid iid p idea st now hc hp hiid hneid hii hidea hmem
    have hmiss : mapLookup s.cache ("post:" ++ pid) = none := by rw [hc]; rfl
    have hgp := getPostById_miss s pid p now hmiss hp
    rw [hc] at hgp
    rw [updatePostStatus_ok_spec s _ pid iid p idea st now hgp rfl rfl rfl
      (by simp [mapSet]) hp hiid hneid hii hidea hmem]
    exact noTagged_concrete_idea iid _ now
  · intro s iid st
    exact updateIdeaStatus_cache s iid st
  · intro s now i s' hc h
    exact pickNextIdea_keeps_ideas_entry s now i s' hc h

/-- Witness for C9 (amended), instantiating every conjunct on the concrete
fixture states. -/
theorem c9_invalidation_amended_witness :
    noTagged (BlogIdeaService.createIdea stIdeaUsed
        ⟨.UNUSED, "t", "p", "g", none, .high, none, none⟩ "i9" 5).2.cache
        "ideas"
    ∧ noTagged (BlogIdeaService.updateIdea stCachedIdeas "i1"
        ⟨none, none⟩ 3).2.cache "ideas"
    ∧ noTagged (BlogIdeaService.markIdeaAsUsed stCachedIdeas "i1").2.cache
        "ideas"
    ∧ noTagged (BlogIdeaService.deleteIdea stCachedIdeas "i1").2.cache
        "ideas"
    ∧ noTagged (BlogPostService.createPost stIdeaUsed
        ⟨none, none, none, none, none, none, none, none, none, none⟩
        "p9" 5).2.cache "posts"
    ∧ noTagged (BlogPostService.deletePost stApprovedUnused "p1" 4).2.cache
        "posts"
    ∧ noTagged (BlogPostService.updatePostStatus stApprovedUnused "p1"
        ⟨.DRAFT, none, none⟩ 4).2.cache "posts"
    ∧ (BlogIdeaService.updateIdeaStatus stCachedIdeas "i1"
        .PROCESSING).2.cache = stCachedIdeas.cache
    ∧ (∃ e, mapLookup (BlogIdeaService.pickNextIdea stIdeaUsed 0).2.cache
        (BlogIdeaService.ideaFiltersKey (some .UNUSED)) = some e
        ∧ "ideas" ∈ e.tags) := by
  obtain ⟨h1, h2, h3, h4, h5, h6, h7, h8, h9⟩ := c9_invalidation_amended
  exact ⟨h1 stIdeaUsed _ "i9" 5,
    h2 stCachedIdeas "i1" ideaUnused ⟨none, none⟩ 3 (by decide),
    h3 stCachedIdeas "i1" ideaUnused (by decide) (by decide),
    h4 stCachedIdeas "i1" ideaUnused (by decide) (by decide),
    h5 stIdeaUsed _ "p9" 5,
    h6 stApprovedUnused "p1" postApproved 4 (by decide) (by decide)
      (by decide),
    h7 stApprovedUnused "p1" "i1" postApproved ideaUnused
      ⟨.DRAFT, none, none⟩ 4 (by decide) (by decide) (by decide) (by decide)
      (by decide) (by decide) (by decide),
    h8 stCachedIdeas "i1" .PROCESSING,
    h9 stIdeaUsed 0 ideaUsedX (BlogIdeaService.pickNextIdea stIdeaUsed 0).2
      (by decide) (by decide)⟩

/-- C6, evaluation at the failing input: the store holds exactly one idea
and its status is USED, so the claim (and the spec) require
`pickNextIdea()` to return `null`; the code instead returns that idea and
flips it to PROCESSING, because `getAllIdeas` accepts but never applies the
`status: "UNUSED"` filter passed by `getUnusedIdeas`. -/
theorem c6_pickNextIdea_ignores_status_filter :
    (BlogIdeaService.pickNextIdea stIdeaUsed 0).1 = .ok (some ideaUsedX)
    ∧ dbGet (BlogIdeaService.pickNextIdea stIdeaUsed 0).2.ideas "i1"
        = some { ideaUsedX with status := .PROCESSING } := by decide

/-- C7, counterexample: with the 7-day 09:00 UTC cadence and the clock at
epoch-ms 1700000000000, the first two upcoming slots are 14 days apart —
two interval lengths, not one, so a grid slot is skipped between adjacent
returned pairs, contrary to the claim. -/
theorem c7_adjacent_slots_not_one_interval :
    (getUpcomingSlots 1700000000000 cfg7 2).map Prod.fst
      = [1700730000000, 1701939600000]
    ∧ ((1701939600000 : Int) - 1700730000000
        ≠ cfg7.intervalDays * msPerDay) := by
  decide

/-- C7, amended: for a valid cadence configuration, `getUpcomingSlots`
returns exactly `n` pairs whose `publishAt` values are strictly increasing
and lie on the epoch-anchored interval grid with `createAt` the configured
lead earlier, but adjacent `publishAt` values are exactly two interval
lengths apart — one grid slot is skipped between consecutive pairs. -/
theorem c7_upcoming_slots_amended (cfg : CadenceConfig) (now : Int) (n : Nat)
    (hI : 1 ≤ cfg.intervalDays) (hH0 : 0 ≤ cfg.publishHour)
    (hH : cfg.publishHour ≤ 23) :
    (getUpcomingSlots now cfg n).length = n
    ∧ List.Chain' (fun a b => b.1 - a.1 = 2 * cfg.intervalDays * msPerDay)
        (getUpcomingSlots now cfg n)
    ∧ ((getUpcomingSlots now cfg n).map Prod.fst).Pairwise (· < ·)
    ∧ (∀ pr ∈ getUpcomingSlots now cfg n,
        pr.2 = pr.1 - cfg.draftLeadHours * msPerHour
        ∧ cfg.intervalDays ∣ Int.fdiv pr.1 msPerDay) := by
  obtain ⟨hslot, hcreate⟩ := computeNextSlots_isSlot cfg now hH0 hH
  obtain ⟨hlen, hchain, hmem, hhead⟩ := upcomingAux_spec cfg n
    (computeNextSlots now cfg) hslot hcreate
  rw [getUpcomingSlots]
  refine ⟨hlen, hchain, ?_,
    fun pr hpr => ⟨(hmem pr hpr).1, (hmem pr hpr).2.2⟩⟩
  have hD : 0 < 2 * cfg.intervalDays * msPerDay := by
    unfold msPerDay
    nlinarith
  have hlt : List.Chain' (· < ·)
      ((upcomingAux cfg n (computeNextSlots now cfg)).map Prod.fst) := by
    rw [List.chain'_map]
    exact hchain.imp (fun a b h => by linarith)
  exact List.chain'_iff_pairwise.mp hlt

/-- Witness for C7 (amended) at the 7-day 09:00 UTC fixture cadence. -/
theorem c7_upcoming_slots_amended_witness :
    ((1:Int) ≤ cfg7.intervalDays ∧ (0:Int) ≤ cfg7.publishHour
      ∧ cfg7.publishHour ≤ 23)
    ∧ ((getUpcomingSlots 1700000000000 cfg7 3).length = 3
    ∧ List.Chain' (fun a b => b.1 - a.1 = 2 * cfg7.intervalDays * msPerDay)
        (getUpcomingSlots 1700000000000 cfg7 3)
    ∧ ((getUpcomingSlots 1700000000000 cfg7 3).map Prod.fst).Pairwise (· < ·)
    ∧ (∀ pr ∈ getUpcomingSlots 1700000000000 cfg7 3,
        pr.2 = pr.1 - cfg7.draftLeadHours * msPerHour
        ∧ cfg7.intervalDays ∣ Int.fdiv pr.1 msPerDay)) :=
  ⟨⟨by decide, by decide, by decide⟩,
    c7_upcoming_slots_amended cfg7 1700000000000 3 (by decide) (by decide)
      (by decide)⟩

end PeakNorth
